import Mathlib

/-!
Verification of the `youtube-transcript` library (src/src/index.ts) against its
specification.  The TypeScript source is shallowly embedded: the network
transport (global `fetch`) is modelled as an explicit `Transport` record of
responses, JavaScript values flowing through the JSON layer are modelled by the
inductive `JVal`, JavaScript numbers by `JsNum` (exact rationals plus NaN and
signed infinities; IEEE rounding is not modelled, every decimal literal in the
claims is exactly representable), and thrown JavaScript errors by `JsErr`
(either one of the library's typed error classes, or an untyped runtime error
such as a TypeError raised by destructuring).
-/

set_option maxRecDepth 8192

/-! ### Basic character classes and list utilities -/

/-- The JavaScript whitespace class `\\s` (WhiteSpace and LineTerminator):
space, tab, LF, VT, FF, CR, NBSP, Ogham space mark, the U+2000-200A range,
the line and paragraph separators, narrow NBSP, math space, ideographic
space, and the BOM. -/
def isJsWs (c : Char) : Bool :=
  c = ' ' || c = '\t' || c = '\n' || c = '\r' || c = '\x0b' || c = '\x0c' ||
  c.toNat = 0xA0 || c.toNat = 0x1680 || (0x2000 ≤ c.toNat && c.toNat ≤ 0x200A) ||
  c.toNat = 0x2028 || c.toNat = 0x2029 || c.toNat = 0x202F || c.toNat = 0x205F ||
  c.toNat = 0x3000 || c.toNat = 0xFEFF

/-- The character class `[^"&?\/\s]` of `RE_YOUTUBE`'s capture group. -/
def isIdChar (c : Char) : Bool :=
  !(c = '"' || c = '&' || c = '?' || c = '/' || isJsWs c)

/-- `.` in a JavaScript regex without the `s` flag: anything but a line
terminator (LF, CR, U+2028, U+2029). -/
def isDot (c : Char) : Bool :=
  !(c = '\n' || c = '\r' || c.toNat = 0x2028 || c.toNat = 0x2029)

/-- Boolean list-prefix test. -/
def isPrefixB : List Char → List Char → Bool
  | [], _ => true
  | _ :: _, [] => false
  | p :: ps, c :: cs => p = c && isPrefixB ps cs

/-- Boolean substring test (JS `String.prototype.includes`). -/
def containsB (sub : List Char) : List Char → Bool
  | [] => isPrefixB sub []
  | c :: cs => isPrefixB sub (c :: cs) || containsB sub cs

/-- JS `String.prototype.includes`. -/
def containsSub (s sub : String) : Bool := containsB sub.data s.data

/-- Worker for `jsSplit`; `fuel` is a structural-termination budget, always
called with more fuel than the length of the string so the `0` case is
unreachable. -/
def splitGo (sep : List Char) : Nat → List Char → List Char → List (List Char)
  | 0, s, acc => [acc.reverse ++ s]
  | fuel + 1, s, acc =>
    match s with
    | [] => [acc.reverse]
    | c :: cs =>
      if isPrefixB sep s then acc.reverse :: splitGo sep fuel (s.drop sep.length) []
      else splitGo sep fuel cs (c :: acc)

/-- JS `String.prototype.split` with a (non-empty) string separator:
leftmost non-overlapping occurrences. -/
def jsSplit (s sep : String) : List String :=
  (splitGo sep.data (s.data.length + 1) s.data []).map String.mk

/-- JS `String.prototype.replace` with a string pattern: replaces only the
FIRST occurrence of `pat`. -/
def replaceFirstL (pat repl : List Char) : List Char → List Char
  | [] => if pat.isEmpty then repl else []
  | c :: cs =>
    if isPrefixB pat (c :: cs) then repl ++ (c :: cs).drop pat.length
    else c :: replaceFirstL pat repl cs

/-- JS `String.prototype.replace` with a string pattern (first occurrence only). -/
def replaceFirst (s pat repl : String) : String :=
  String.mk (replaceFirstL pat.data repl.data s.data)

/-- Numeric value of a list of decimal digits. -/
def natOfDigits (l : List Char) : Nat :=
  l.foldl (fun a c => 10 * a + (c.toNat - '0'.toNat)) 0

/-! ### JavaScript numbers -/

/-- A JavaScript number as produced by `parseFloat`/`JSON.parse` in this
library: NaN, a signed infinity, or an exact rational value (IEEE-754
rounding is not modelled; all decimal literals appearing in the claims are
exactly representable). -/
inductive JsNum where
  | nan : JsNum
  | inf (neg : Bool) : JsNum
  | num (q : ℚ) : JsNum
deriving DecidableEq, Repr

/-- `(-1)^neg * m * 10^net` as a rational, built with `mkRat` only (no `Rat`
arithmetic) so that it evaluates inside the kernel. -/
def ratOfParts (neg : Bool) (m : Nat) (net : Int) : ℚ :=
  let sm : Int := if neg then -(m : Int) else (m : Int)
  if 0 ≤ net then mkRat (sm * Int.ofNat (10 ^ net.toNat)) 1
  else mkRat sm (10 ^ (-net).toNat)

/-- Parses the longest decimal-literal prefix (digits, optional fraction,
optional exponent), returning the mantissa digits' value and the net
power-of-ten exponent; `none` when no digit is present. -/
def parseDecimalPrefix (l : List Char) : Option (Nat × Int) :=
  let ip := l.takeWhile Char.isDigit
  let r1 := l.dropWhile Char.isDigit
  let fr :=
    match r1 with
    | '.' :: rest => (rest.takeWhile Char.isDigit, rest.dropWhile Char.isDigit)
    | _ => ([], r1)
  let fp := fr.1
  let r2 := fr.2
  if ip.isEmpty && fp.isEmpty then none
  else
    let ed :=
      match r2 with
      | 'e' :: '+' :: rest => (false, rest.takeWhile Char.isDigit)
      | 'e' :: '-' :: rest => (true, rest.takeWhile Char.isDigit)
      | 'e' :: rest => (false, rest.takeWhile Char.isDigit)
      | 'E' :: '+' :: rest => (false, rest.takeWhile Char.isDigit)
      | 'E' :: '-' :: rest => (true, rest.takeWhile Char.isDigit)
      | 'E' :: rest => (false, rest.takeWhile Char.isDigit)
      | _ => (false, [])
    let m := natOfDigits (ip ++ fp)
    let fracLen : Int := Int.ofNat fp.length
    -- an `e` not followed by a digit is not part of the matched prefix
    if ed.2.isEmpty then some (m, -fracLen)
    else
      let e : Int := Int.ofNat (natOfDigits ed.2)
      some (m, (if ed.1 then -e else e) - fracLen)

/-- The characters of the literal `Infinity`. -/
def infinityChars : List Char := ['I', 'n', 'f', 'i', 'n', 'i', 't', 'y']

/-- JS `parseFloat`: skip leading whitespace, optional sign, then the longest
`Infinity`-or-decimal prefix; NaN when nothing numeric is found.  Trailing
garbage is ignored. -/
def parseFloat (s : String) : JsNum :=
  let l := s.data.dropWhile isJsWs
  let core : Bool → List Char → JsNum := fun neg r =>
    if isPrefixB infinityChars r then JsNum.inf neg
    else
      match parseDecimalPrefix r with
      | some md => JsNum.num (ratOfParts neg md.1 md.2)
      | none => JsNum.nan
  match l with
  | '+' :: r => core false r
  | '-' :: r => core true r
  | r => core false r

/-! ### JavaScript values, errors, and the library's error taxonomy -/

/-- A JavaScript value as it can flow through this library's JSON layer. -/
inductive JVal where
  | undef : JVal
  | null : JVal
  | bool (b : Bool) : JVal
  | num (n : JsNum) : JVal
  | str (s : String) : JVal
  | arr (elems : List JVal) : JVal
  | obj (fields : List (String × JVal)) : JVal

/-- The library's error classes (src/src/index.ts lines 8-54), as a tagged
variant carrying each constructor's payload. -/
inductive YtError where
  | base (message : String) : YtError
  | tooManyRequests : YtError
  | videoUnavailable (videoId : String) : YtError
  | transcriptDisabled (videoId : String) : YtError
  | transcriptNotAvailable (videoId : String) : YtError
  | languageNotAvailable (lang : String) (availableLangs : List JVal) (videoId : String) : YtError
  | emptyTranscript (videoId : String) (method : String) : YtError

/-- A thrown JavaScript error: either one of the library's typed
`YoutubeTranscriptError` subclasses, or an untyped runtime error (TypeError,
SyntaxError, ...) carrying only a message. -/
inductive JsErr where
  | typed (e : YtError) : JsErr
  | untyped (message : String) : JsErr

/-- Best-effort rendering of a JS number for string conversion; only the
string case is ever exercised by the library's error messages in the claims
(JS double formatting is not modelled). -/
def jsNumDisplay : JsNum → String
  | JsNum.nan => "NaN"
  | JsNum.inf true => "-Infinity"
  | JsNum.inf false => "Infinity"
  | JsNum.num q => toString q.num ++ (if q.den = 1 then "" else "/" ++ toString q.den)

/-- How `Array.prototype.join` converts one element to a string:
`undefined`/`null` become the empty string. -/
def jvalJoinPiece : JVal → String
  | JVal.str s => s
  | JVal.undef => ""
  | JVal.null => ""
  | JVal.bool b => if b then "true" else "false"
  | JVal.num n => jsNumDisplay n
  | JVal.arr _ => ""
  | JVal.obj _ => "[object Object]"

/-- `availableLangs.join(', ')`. -/
def joinComma : List JVal → String
  | [] => ""
  | [x] => jvalJoinPiece x
  | x :: rest => jvalJoinPiece x ++ ", " ++ joinComma rest

/-- The message prefix added by the `YoutubeTranscriptError` base class. -/
def ytPrefix : String := "[YoutubeTranscript] 🚨 "

/-- The human-readable message of each error, mirroring the constructors in
src/src/index.ts lines 8-54. -/
def YtError.message : YtError → String
  | YtError.base m => ytPrefix ++ m
  | YtError.tooManyRequests =>
    ytPrefix ++ "YouTube is receiving too many requests from this IP and now requires solving a captcha to continue"
  | YtError.videoUnavailable v =>
    ytPrefix ++ "The video is no longer available (" ++ v ++ ")"
  | YtError.transcriptDisabled v =>
    ytPrefix ++ "Transcript is disabled on this video (" ++ v ++ ")"
  | YtError.transcriptNotAvailable v =>
    ytPrefix ++ "No transcripts are available for this video (" ++ v ++ ")"
  | YtError.languageNotAvailable l ls v =>
    ytPrefix ++ "No transcripts are available in " ++ l ++ " this video (" ++ v ++
      "). Available languages: " ++ joinComma ls
  | YtError.emptyTranscript v m =>
    ytPrefix ++ "The transcript file URL returns an empty response using " ++ m ++ " (" ++ v ++ ")"

/-! ### JSON.parse -/

/-- JSON whitespace (ECMA-404): space, tab, newline, carriage return. -/
def jsonWsChar (c : Char) : Bool :=
  c = ' ' || c = '\t' || c = '\n' || c = '\r'

/-- Skip JSON whitespace. -/
def skipWs (l : List Char) : List Char := l.dropWhile jsonWsChar

/-- Hex digit value (code points 0-9, a-f, A-F). -/
def hexVal? (c : Char) : Option Nat :=
  let n := c.toNat
  if 0x30 ≤ n && n ≤ 0x39 then some (n - 0x30)
  else if 0x61 ≤ n && n ≤ 0x66 then some (n - 0x57)
  else if 0x41 ≤ n && n ≤ 0x46 then some (n - 0x37)
  else none

/-- Body of a JSON string after the opening quote: decodes escapes, rejects
raw control characters, consumes the closing quote. -/
def parseJString : List Char → Option (List Char × List Char)
  | [] => none
  | '"' :: rest => some ([], rest)
  | '\\' :: e :: rest =>
    match e with
    | '"' => (parseJString rest).map (fun p => ('"' :: p.1, p.2))
    | '\\' => (parseJString rest).map (fun p => ('\\' :: p.1, p.2))
    | '/' => (parseJString rest).map (fun p => ('/' :: p.1, p.2))
    | 'b' => (parseJString rest).map (fun p => ('\x08' :: p.1, p.2))
    | 'f' => (parseJString rest).map (fun p => ('\x0c' :: p.1, p.2))
    | 'n' => (parseJString rest).map (fun p => ('\n' :: p.1, p.2))
    | 'r' => (parseJString rest).map (fun p => ('\r' :: p.1, p.2))
    | 't' => (parseJString rest).map (fun p => ('\t' :: p.1, p.2))
    | 'u' =>
      match rest with
      | h1 :: h2 :: h3 :: h4 :: rest2 =>
        match hexVal? h1, hexVal? h2, hexVal? h3, hexVal? h4 with
        | some a, some b, some c, some d =>
          (parseJString rest2).map
            (fun p => (Char.ofNat (((a * 16 + b) * 16 + c) * 16 + d) :: p.1, p.2))
        | _, _, _, _ => none
      | _ => none
    | _ => none
  | c :: rest =>
    if c.toNat < 0x20 then none
    else (parseJString rest).map (fun p => (c :: p.1, p.2))

/-- A JSON number literal (strict grammar: `-? (0 | [1-9][0-9]*) frac? exp?`),
returning the mantissa value and net power-of-ten exponent. -/
def parseJNumber (l : List Char) : Option ((Bool × Nat × Int) × List Char) :=
  let sg :=
    match l with
    | '-' :: r => (true, r)
    | _ => (false, l)
  let neg := sg.1
  let l1 := sg.2
  let ip := l1.takeWhile Char.isDigit
  if ip.isEmpty then none
  else if 1 < ip.length && ip.headD 'x' = '0' then none
  else
    let r1 := l1.dropWhile Char.isDigit
    let fr :=
      match r1 with
      | '.' :: rest =>
        let fp := rest.takeWhile Char.isDigit
        if fp.isEmpty then none
        else some (fp, rest.dropWhile Char.isDigit)
      | _ => some ([], r1)
    match fr with
    | none => none
    | some (fp, r2) =>
      let ex :=
        match r2 with
        | 'e' :: '+' :: rest => some (false, rest.takeWhile Char.isDigit, rest.dropWhile Char.isDigit)
        | 'e' :: '-' :: rest => some (true, rest.takeWhile Char.isDigit, rest.dropWhile Char.isDigit)
        | 'e' :: rest => some (false, rest.takeWhile Char.isDigit, rest.dropWhile Char.isDigit)
        | 'E' :: '+' :: rest => some (false, rest.takeWhile Char.isDigit, rest.dropWhile Char.isDigit)
        | 'E' :: '-' :: rest => some (true, rest.takeWhile Char.isDigit, rest.dropWhile Char.isDigit)
        | 'E' :: rest => some (false, rest.takeWhile Char.isDigit, rest.dropWhile Char.isDigit)
        | _ => none
      let m := natOfDigits (ip ++ fp)
      let fracLen : Int := Int.ofNat fp.length
      match ex with
      | none => some ((neg, m, -fracLen), r2)
      | some (esign, ed, r3) =>
        if ed.isEmpty then none
        else
          let e : Int := Int.ofNat (natOfDigits ed)
          some ((neg, m, (if esign then -e else e) - fracLen), r3)

/-- Recursive-descent JSON value parser with a structural fuel budget.  The
tails of arrays and objects are parsed by re-wrapping the remaining input as
`[rest` / `{rest` and recursing, which keeps the function non-mutual and
structurally recursive on the fuel; `jsonParse` supplies enough fuel that the
`0` case is unreachable. -/
def parseJV : Nat → List Char → Option (JVal × List Char)
  | 0, _ => none
  | fuel + 1, l =>
    match skipWs l with
    | [] => none
    | c :: rest =>
      if c = '"' then
        (parseJString rest).map (fun p => (JVal.str (String.mk p.1), p.2))
      else if c = 't' then
        if isPrefixB ['r', 'u', 'e'] rest then some (JVal.bool true, rest.drop 3) else none
      else if c = 'f' then
        if isPrefixB ['a', 'l', 's', 'e'] rest then some (JVal.bool false, rest.drop 4) else none
      else if c = 'n' then
        if isPrefixB ['u', 'l', 'l'] rest then some (JVal.null, rest.drop 3) else none
      else if c = '[' then
        match skipWs rest with
        | ']' :: r2 => some (JVal.arr [], r2)
        | _ =>
          match parseJV fuel rest with
          | none => none
          | some (v, r2) =>
            match skipWs r2 with
            | ']' :: r3 => some (JVal.arr [v], r3)
            | ',' :: r3 =>
              match skipWs r3 with
              | ']' :: _ => none
              | _ =>
                match parseJV fuel ('[' :: r3) with
                | some (JVal.arr vs, r4) => some (JVal.arr (v :: vs), r4)
                | _ => none
            | _ => none
      else if c = '\x7b' then
        match skipWs rest with
        | '\x7d' :: r2 => some (JVal.obj [], r2)
        | '"' :: r2 =>
          match parseJString r2 with
          | none => none
          | some (k, r3) =>
            match skipWs r3 with
            | ':' :: r4 =>
              match parseJV fuel r4 with
              | none => none
              | some (v, r5) =>
                match skipWs r5 with
                | '\x7d' :: r6 => some (JVal.obj [(String.mk k, v)], r6)
                | ',' :: r6 =>
                  match skipWs r6 with
                  | '\x7d' :: _ => none
                  | _ =>
                    match parseJV fuel ('\x7b' :: r6) with
                    | some (JVal.obj fs, r7) => some (JVal.obj ((String.mk k, v) :: fs), r7)
                    | _ => none
                | _ => none
            | _ => none
        | _ => none
      else
        (parseJNumber (c :: rest)).map
          (fun p => (JVal.num (JsNum.num (ratOfParts p.1.1 p.1.2.1 p.1.2.2)), p.2))

/-- JS `JSON.parse` (also the JSON parse inside `Response.json()`): `none`
models a thrown SyntaxError. -/
def jsonParse (s : String) : Option JVal :=
  match parseJV (2 * s.data.length + 2) s.data with
  | some (v, rest) => if (skipWs rest).isEmpty then some v else none
  | none => none

/-! ### JavaScript value semantics used by the library -/

/-- JS falsiness: `undefined`, `null`, `false`, `0`, `NaN`, `''`. -/
def jsFalsy : JVal → Bool
  | JVal.undef => true
  | JVal.null => true
  | JVal.bool b => !b
  | JVal.num JsNum.nan => true
  | JVal.num (JsNum.num q) => q = 0
  | JVal.num (JsNum.inf _) => false
  | JVal.str s => s.isEmpty
  | JVal.arr _ => false
  | JVal.obj _ => false

/-- JS nullish: `undefined` or `null` (property access on these throws). -/
def jsNullish : JVal → Bool
  | JVal.undef => true
  | JVal.null => true
  | _ => false

/-- Is the value an object in the sense of the `in` operator (objects and
arrays; primitives make `in` throw a TypeError). -/
def jsObjLike : JVal → Bool
  | JVal.obj _ => true
  | JVal.arr _ => true
  | _ => false

/-- Is the value `undefined`. -/
def isUndef : JVal → Bool
  | JVal.undef => true
  | _ => false

/-- Property lookup on an object's field list; with duplicate keys the last
one wins, as for objects built by `JSON.parse`. -/
def lookupLast (fields : List (String × JVal)) (k : String) : JVal :=
  match fields with
  | [] => JVal.undef
  | (k1, v) :: rest =>
    let r := lookupLast rest k
    if isUndef r then (if k1 = k then v else JVal.undef) else r

/-- A canonical array-index key (`"0"`, `"1"`, ...: digits with no leading
zero). -/
def natKey? (k : String) : Option Nat :=
  match k.data with
  | [] => none
  | c :: cs =>
    if c = '0' then (if cs.isEmpty then some 0 else none)
    else if c.isDigit && cs.all Char.isDigit then some (natOfDigits (c :: cs))
    else none

/-- JS property read `v[k]` on a non-nullish value: object fields, array
indices and `length`, string indices and `length`; everything else is
`undefined`.  (Inherited methods are outside the model; the library only
reads data properties.) -/
def jsGet : JVal → String → JVal
  | JVal.obj fields, k => lookupLast fields k
  | JVal.arr xs, k =>
    if k = "length" then JVal.num (JsNum.num (mkRat (Int.ofNat xs.length) 1))
    else
      match natKey? k with
      | some i => (xs.get? i).getD JVal.undef
      | none => JVal.undef
  | JVal.str s, k =>
    if k = "length" then JVal.num (JsNum.num (mkRat (Int.ofNat s.length) 1))
    else
      match natKey? k with
      | some i =>
        match s.data.get? i with
        | some c => JVal.str (String.mk [c])
        | none => JVal.undef
      | none => JVal.undef
  | _, _ => JVal.undef

/-- JS property read `v[k]` as an expression: throws a TypeError when `v` is
nullish, otherwise reads the property. -/
def jsIndex (v : JVal) (k : String) : Except JsErr JVal :=
  if jsNullish v then
    Except.error (JsErr.untyped ("TypeError: Cannot read properties of " ++
      (if isUndef v then "undefined" else "null") ++ " (reading '" ++ k ++ "')"))
  else Except.ok (jsGet v k)

/-- The JS `in` operator's key test (the library applies it only after
checking the value is object-like). -/
def jsHasKey (v : JVal) (k : String) : Bool :=
  match v with
  | JVal.obj fields => fields.any (fun f => f.1 = k)
  | JVal.arr xs =>
    k = "length" ||
      (match natKey? k with
       | some i => i < xs.length
       | none => false)
  | _ => false

/-- JS strict equality `x === l` where `l` is a string. -/
def jsStrEq (v : JVal) (l : String) : Bool :=
  match v with
  | JVal.str s => s = l
  | _ => false

/-! ### The video-identifier regex RE_YOUTUBE and retrieveVideoId

`RE_YOUTUBE = /(?:youtube\.com\/(?:[^\/]+\/.+\/|(?:v|e(?:mbed)?|shorts)\/|.*[?&]v=)|youtu\.be\/)([^"&?\/\s]{11})/i`

The matcher below is a faithful backtracking implementation of this one
regex: at each input position the alternatives are tried in source order,
greedy quantifiers enumerate their candidate remainders longest-first, and
the first candidate that lets the 11-character capture group succeed wins;
positions are tried left to right. -/

/-- Case-insensitive character comparison (the regex has the `i` flag). -/
def charCI (p c : Char) : Bool := p.toLower = c.toLower

/-- Match a literal (case-insensitively), returning the remainder. -/
def strCI : List Char → List Char → Option (List Char)
  | [], s => some s
  | _ :: _, [] => none
  | p :: ps, c :: cs => if charCI p c then strCI ps cs else none

/-- Candidate remainders of a greedy `p*`, longest match first. -/
def starCands (p : Char → Bool) : List Char → List (List Char)
  | [] => [[]]
  | c :: cs => if p c then starCands p cs ++ [c :: cs] else [c :: cs]

/-- Candidate remainders of a greedy `p+`, longest match first. -/
def plusCands (p : Char → Bool) : List Char → List (List Char)
  | [] => []
  | c :: cs => if p c then starCands p cs else []

/-- Require a literal character at the head of one candidate remainder. -/
def consumeStep (ch : Char) : List Char → Option (List Char)
  | [] => none
  | c :: cs => if c = ch then some cs else none

/-- Require a literal character at the head of each candidate remainder. -/
def consumeLit (ch : Char) (cands : List (List Char)) : List (List Char) :=
  cands.filterMap (consumeStep ch)

/-- First alternative after `youtube.com/`: `[^\/]+\/.+\/`. -/
def a1Cands (t : List Char) : List (List Char) :=
  (consumeLit '/' (plusCands (fun c => !(c = '/')) t)).flatMap
    fun u => consumeLit '/' (plusCands isDot u)

def patV : List Char := ['v', '/']
def patEmbed : List Char := ['e', 'm', 'b', 'e', 'd', '/']
def patE : List Char := ['e', '/']
def patShorts : List Char := ['s', 'h', 'o', 'r', 't', 's', '/']
def patVEq : List Char := ['v', '=']
def patYoutube : List Char := ['y', 'o', 'u', 't', 'u', 'b', 'e', '.', 'c', 'o', 'm', '/']
def patYoutuBe : List Char := ['y', 'o', 'u', 't', 'u', '.', 'b', 'e', '/']

/-- Second alternative after `youtube.com/`: `(?:v|e(?:mbed)?|shorts)\/`
(the optional greedy `(?:mbed)?` makes the attempt order `v/`, `embed/`,
`e/`, `shorts/`). -/
def a2Cands (t : List Char) : List (List Char) :=
  [strCI patV t, strCI patEmbed t, strCI patE t, strCI patShorts t].filterMap id

/-- After the greedy `.*` of the third alternative: `[?&]v=`. -/
def a3Step : List Char → Option (List Char)
  | [] => none
  | c :: cs => if c = '?' || c = '&' then strCI patVEq cs else none

/-- Third alternative after `youtube.com/`: `.*[?&]v=`. -/
def a3Cands (t : List Char) : List (List Char) :=
  (starCands isDot t).filterMap a3Step

/-- The capture group `([^"&?\/\s]{11})`: exactly 11 identifier characters
(whatever follows is unconstrained). -/
def finishCap (r : List Char) : Option (List Char) :=
  let cap := r.take 11
  if cap.length = 11 && cap.all isIdChar then some cap else none

/-- First candidate on which `f` succeeds (regex backtracking order). -/
def firstSome (f : List Char → Option (List Char)) : List (List Char) → Option (List Char)
  | [] => none
  | r :: rs =>
    match f r with
    | some v => some v
    | none => firstSome f rs

/-- Try the whole pattern at one position, returning the capture group. -/
def matchAt (s : List Char) : Option (List Char) :=
  let inner :=
    match strCI patYoutube s with
    | some t => a1Cands t ++ a2Cands t ++ a3Cands t
    | none => []
  let beCands :=
    match strCI patYoutuBe s with
    | some t => [t]
    | none => []
  firstSome finishCap (inner ++ beCands)

/-- Leftmost match: try each position left to right. -/
def scanRe : List Char → Option (List Char)
  | [] => none
  | c :: cs =>
    match matchAt (c :: cs) with
    | some cap => some cap
    | none => scanRe cs

/-- `videoId.match(RE_YOUTUBE)`'s capture group 1, or `none` when the regex
does not match. -/
def reYoutubeCapture (s : String) : Option String :=
  (scanRe s.data).map String.mk

/-- src/src/index.ts lines 255-266: an 11-character input is returned
unchanged, otherwise the regex capture is returned, otherwise a generic
`YoutubeTranscriptError` is thrown. -/
def retrieveVideoId (videoId : String) : Except YtError String :=
  if videoId.length = 11 then Except.ok videoId
  else
    match reYoutubeCapture videoId with
    | some vid => Except.ok vid
    | none => Except.error (YtError.base "Impossible to retrieve Youtube video ID.")

/-! ### The timed-text regex RE_XML_TRANSCRIPT

`RE_XML_TRANSCRIPT = /<text start="([^"]*)" dur="([^"]*)">([^<]*)<\/text>/g`

Every quantifier in this pattern is a greedy star over a character class
immediately followed by the class's excluded character, so each match is
deterministic; `matchAll` finds leftmost matches and continues after each. -/

/-- Expect an exact (case-sensitive) literal, returning the remainder. -/
def expectLit : List Char → List Char → Option (List Char)
  | [], s => some s
  | _ :: _, [] => none
  | p :: ps, c :: cs => if c = p then expectLit ps cs else none

/-- `([^x]*)x`: the characters before the first `stop`, and the remainder
after it; fails when `stop` does not occur. -/
def takeUntilCh (stop : Char) : List Char → Option (List Char × List Char)
  | [] => none
  | c :: cs =>
    if c = stop then some ([], cs)
    else
      match takeUntilCh stop cs with
      | some p => some (c :: p.1, p.2)
      | none => none

def xmlOpen : List Char := ['<', 't', 'e', 'x', 't', ' ', 's', 't', 'a', 'r', 't', '=', '"']
def xmlMid : List Char := [' ', 'd', 'u', 'r', '=', '"']
def xmlClose : List Char := ['/', 't', 'e', 'x', 't', '>']

/-- One attempt of `RE_XML_TRANSCRIPT` at the current position: on success
returns the three capture groups (start, dur, text) and the remainder after
the match. -/
def matchXmlText (s : List Char) : Option ((String × String × String) × List Char) :=
  match expectLit xmlOpen s with
  | none => none
  | some r1 =>
    match takeUntilCh '"' r1 with
    | none => none
    | some (st, r2) =>
      match expectLit xmlMid r2 with
      | none => none
      | some r3 =>
        match takeUntilCh '"' r3 with
        | none => none
        | some (du, r4) =>
          match r4 with
          | '>' :: r5 =>
            match takeUntilCh '<' r5 with
            | none => none
            | some (tx, r6) =>
              match expectLit xmlClose r6 with
              | none => none
              | some r7 => some ((String.mk st, String.mk du, String.mk tx), r7)
          | _ => none

/-- `matchAll` scan: leftmost matches, resuming after each; `fuel` is a
structural budget always instantiated above the input length. -/
def scanXml : Nat → List Char → List (String × String × String)
  | 0, _ => []
  | fuel + 1, s =>
    match matchXmlText s with
    | some (seg, rest) => seg :: scanXml fuel rest
    | none =>
      match s with
      | [] => []
      | _ :: cs => scanXml fuel cs

/-- `[...transcriptBody.matchAll(RE_XML_TRANSCRIPT)]` as the list of capture
triples (start, dur, text) in document order. -/
def xmlSegments (body : String) : List (String × String × String) :=
  scanXml (body.data.length + 1) body.data

/-! ### The transcript pipeline -/

/-- The caller-supplied configuration (src/src/index.ts lines 55-57). -/
structure TranscriptConfig where
  lang : Option String

/-- One output segment (src/src/index.ts lines 58-63).  `lang` is a `JVal`
because at runtime the field receives whatever value
`config?.lang ?? captions.captionTracks[0].languageCode` evaluates to. -/
structure TranscriptResponse where
  text : String
  duration : JsNum
  offset : JsNum
  lang : JVal

/-- The network transport underlying the global `fetch`: the text of the
watch-page response, the text of the InnerTube POST response, and for each
caption-track `baseUrl` value the pair (`response.ok`, response text). -/
structure Transport where
  watchPage : String
  innerTubeBody : String
  track : JVal → Bool × String

/-- JS string truthiness of `config?.lang`: present and non-empty. -/
def truthyOptStr : Option String → Bool
  | some s => !(s == "")
  | none => false

/-- `captionTracks.some((track) => track.languageCode === lang)`: the callback
reads `track.languageCode`, which throws when an element is nullish. -/
def jsSomeLang (ts : List JVal) (l : String) : Except JsErr Bool :=
  match ts with
  | [] => Except.ok false
  | tr :: rest =>
    match jsIndex tr "languageCode" with
    | Except.error e => Except.error e
    | Except.ok code =>
      if jsStrEq code l then Except.ok true else jsSomeLang rest l

/-- `captionTracks.find((track) => track.languageCode === lang)`: `undefined`
when no element matches. -/
def jsFindLang (ts : List JVal) (l : String) : Except JsErr JVal :=
  match ts with
  | [] => Except.ok JVal.undef
  | tr :: rest =>
    match jsIndex tr "languageCode" with
    | Except.error e => Except.error e
    | Except.ok code =>
      if jsStrEq code l then Except.ok tr else jsFindLang rest l

/-- `captionTracks.map((track) => track.languageCode)`. -/
def jsMapCodes : List JVal → Except JsErr (List JVal)
  | [] => Except.ok []
  | tr :: rest =>
    match jsIndex tr "languageCode" with
    | Except.error e => Except.error e
    | Except.ok code =>
      match jsMapCodes rest with
      | Except.error e => Except.error e
      | Except.ok codes => Except.ok (code :: codes)

/-- `results.map(...)` of src/src/index.ts lines 243-248: each regex result
becomes a segment, with `lang` evaluated per element as
`config?.lang ?? captions.captionTracks[0].languageCode` (`??` tests only
nullishness, so an empty-string `lang` is kept). -/
def mapSegs (cfgLang : Option String) (tracks : JVal) :
    List (String × String × String) → Except JsErr (List TranscriptResponse)
  | [] => Except.ok []
  | (st, du, tx) :: rest =>
    let langE : Except JsErr JVal :=
      match cfgLang with
      | some l => Except.ok (JVal.str l)
      | none =>
        match jsIndex tracks "0" with
        | Except.error e => Except.error e
        | Except.ok tr0 => jsIndex tr0 "languageCode"
    match langE with
    | Except.error e => Except.error e
    | Except.ok langV =>
      match mapSegs cfgLang tracks rest with
      | Except.error e => Except.error e
      | Except.ok segs =>
        Except.ok ({ text := tx, duration := parseFloat du, offset := parseFloat st,
                     lang := langV } :: segs)

/-- src/src/index.ts lines 198-249, `processTranscriptFromCaptions`:
validate the captions structure, select a track, fetch its timed-text
resource through the transport, and parse it.  The emptiness of the result
is NOT checked here (that is done by each fetch strategy). -/
def processTranscriptFromCaptions (T : Transport) (captions : JVal)
    (videoId : String) (config : Option TranscriptConfig) :
    Except JsErr (List TranscriptResponse) :=
  if jsFalsy captions then
    Except.error (JsErr.typed (YtError.transcriptDisabled videoId))
  else if !jsObjLike captions then
    -- `'captionTracks' in captions` on a truthy primitive throws a TypeError
    Except.error (JsErr.untyped "TypeError: Cannot use 'in' operator to search for 'captionTracks'")
  else if !jsHasKey captions "captionTracks" then
    Except.error (JsErr.typed (YtError.transcriptNotAvailable videoId))
  else
    let cfgLang := Option.bind config TranscriptConfig.lang
    let tracks := jsGet captions "captionTracks"
    let checked : Except JsErr Unit :=
      if truthyOptStr cfgLang then
        match tracks with
        | JVal.arr ts =>
          match jsSomeLang ts (cfgLang.getD "") with
          | Except.error e => Except.error e
          | Except.ok true => Except.ok ()
          | Except.ok false =>
            match jsMapCodes ts with
            | Except.error e => Except.error e
            | Except.ok codes =>
              Except.error (JsErr.typed
                (YtError.languageNotAvailable (cfgLang.getD "") codes videoId))
        | _ => Except.error (JsErr.untyped "TypeError: captions.captionTracks.some is not a function")
      else Except.ok ()
    match checked with
    | Except.error e => Except.error e
    | Except.ok _ =>
      let selectedE : Except JsErr JVal :=
        if truthyOptStr cfgLang then
          match tracks with
          | JVal.arr ts => jsFindLang ts (cfgLang.getD "")
          | _ => Except.error (JsErr.untyped "TypeError: captions.captionTracks.find is not a function")
        else jsIndex tracks "0"
      match selectedE with
      | Except.error e => Except.error e
      | Except.ok selected =>
        match jsIndex selected "baseUrl" with
        | Except.error e => Except.error e
        | Except.ok transcriptURL =>
          let resp := T.track transcriptURL
          if !resp.1 then
            Except.error (JsErr.typed (YtError.transcriptNotAvailable videoId))
          else
            mapSegs cfgLang tracks (xmlSegments resp.2)

/-- src/src/index.ts lines 119-127: isolate the JSON fragment of the second
split part up to the `,"videoDetails` boundary, strip the first newline
(`String.prototype.replace` with a string pattern replaces one occurrence),
`JSON.parse` it (a throw yields `undefined`), and optionally-chain into
`playerCaptionsTracklistRenderer`. -/
def captionsFromSplit (splittedHTML : List String) : JVal :=
  let afterMarker := (splittedHTML.get? 1).getD ""
  let frag := ((jsSplit afterMarker ",\"videoDetails").get? 0).getD ""
  match jsonParse (replaceFirst frag "\n" "") with
  | some v => jsGet v "playerCaptionsTracklistRenderer"
  | none => JVal.undef

/-- src/src/index.ts lines 94-140, `fetchTranscriptWithHtmlScraping`. -/
def fetchTranscriptWithHtmlScraping (T : Transport) (videoId : String)
    (config : Option TranscriptConfig) : Except JsErr (List TranscriptResponse) :=
  match retrieveVideoId videoId with
  | Except.error e => Except.error (JsErr.typed e)
  | Except.ok _ =>
    let videoPageBody := T.watchPage
    let splittedHTML := jsSplit videoPageBody "\"captions\":"
    if splittedHTML.length ≤ 1 then
      if containsSub videoPageBody "class=\"g-recaptcha\"" then
        Except.error (JsErr.typed YtError.tooManyRequests)
      else if !containsSub videoPageBody "\"playabilityStatus\":" then
        Except.error (JsErr.typed (YtError.videoUnavailable videoId))
      else
        Except.error (JsErr.typed (YtError.transcriptDisabled videoId))
    else
      match processTranscriptFromCaptions T (captionsFromSplit splittedHTML) videoId config with
      | Except.error e => Except.error e
      | Except.ok processed =>
        if processed.length = 0 then
          Except.error (JsErr.typed (YtError.emptyTranscript videoId "HTML scraping"))
        else
          Except.ok processed

/-- src/src/index.ts lines 147-190, `fetchTranscriptWithInnerTube`: parse the
InnerTube POST response as JSON (an invalid body makes `response.json()`
reject with an untyped SyntaxError) and destructure
`{ captions: { playerCaptionsTracklistRenderer: captions } }`, which throws
an untyped TypeError when the response value or its `captions` property is
nullish. -/
def fetchTranscriptWithInnerTube (T : Transport) (videoId : String)
    (config : Option TranscriptConfig) : Except JsErr (List TranscriptResponse) :=
  match retrieveVideoId videoId with
  | Except.error e => Except.error (JsErr.typed e)
  | Except.ok _ =>
    match jsonParse T.innerTubeBody with
    | none => Except.error (JsErr.untyped "SyntaxError: Unexpected token in JSON")
    | some parsed =>
      if jsNullish parsed then
        Except.error (JsErr.untyped "TypeError: Cannot destructure property 'captions'")
      else
        let captionsOuter := jsGet parsed "captions"
        if jsNullish captionsOuter then
          Except.error
            (JsErr.untyped "TypeError: Cannot destructure property 'playerCaptionsTracklistRenderer'")
        else
          match processTranscriptFromCaptions T
              (jsGet captionsOuter "playerCaptionsTracklistRenderer") videoId config with
          | Except.error e => Except.error e
          | Except.ok processed =>
            if processed.length = 0 then
              Except.error (JsErr.typed (YtError.emptyTranscript videoId "InnerTube API"))
            else
              Except.ok processed

/-- `e instanceof YoutubeTranscriptEmptyError`. -/
def isEmptyTranscriptError : JsErr → Bool
  | JsErr.typed (YtError.emptyTranscript _ _) => true
  | _ => false

/-- src/src/index.ts lines 74-87, the public entry point `fetchTranscript`:
run the HTML-scraping strategy; on a `YoutubeTranscriptEmptyError` (and only
then) fall back to the InnerTube strategy, whose outcome is final; any other
error propagates unchanged. -/
def fetchTranscript (T : Transport) (videoId : String)
    (config : Option TranscriptConfig) : Except JsErr (List TranscriptResponse) :=
  match fetchTranscriptWithHtmlScraping T videoId config with
  | Except.ok r => Except.ok r
  | Except.error e =>
    if isEmptyTranscriptError e then fetchTranscriptWithInnerTube T videoId config
    else Except.error e

/-! ### Definitions used only to state claims -/

/-- A timed-text element of the shape `<text start="S" dur="D">TEXT</text>`. -/
def renderXmlSeg (g : String × String × String) : String :=
  "<text start=\"" ++ g.1 ++ "\" dur=\"" ++ g.2.1 ++ "\">" ++ g.2.2 ++ "</text>"

/-- A timed-text body made of consecutive elements. -/
def renderXmlSegs : List (String × String × String) → String
  | [] => ""
  | g :: rest => renderXmlSeg g ++ renderXmlSegs rest

/-- Well-formedness of one element's pieces: the attribute values contain no
double quote and the inner text contains no `<`. -/
def wfXmlSeg (g : String × String × String) : Bool :=
  g.1.data.all (fun c => !(c = '"')) &&
  g.2.1.data.all (fun c => !(c = '"')) &&
  g.2.2.data.all (fun c => !(c = '<'))

/-- Modelled from the spec's words for claim C6 ("all stray newline characters
... are stripped"): remove EVERY newline.  The source instead uses
`String.prototype.replace`, which strips only the first one; this definition
exists to exhibit the difference. -/
def stripAllNewlines (s : String) : String :=
  String.mk (s.data.filter (fun c => !(c = '\n')))

/-- A well-formed caption track with the two fields the library reads. -/
def mkTrack (p : String × String) : JVal :=
  JVal.obj [("languageCode", JVal.str p.1), ("baseUrl", JVal.str p.2)]

/-! ### Concrete inputs used by witnesses and counterexamples -/

/-- An 11-character video identifier. -/
def vid0 : String := "abcdefghijk"

/-- A watch-page body whose captions JSON has one `en` track. -/
def watchPage0 : String :=
  "\"captions\":\x7b\"playerCaptionsTracklistRenderer\":\x7b\"captionTracks\":[\x7b\"languageCode\":\"en\",\"baseUrl\":\"u\"\x7d]\x7d\x7d,\"videoDetails"

/-- Transport: valid captions metadata, but the timed-text resource is empty
and the InnerTube response is `{}` (no `captions` field). -/
def T0 : Transport :=
  { watchPage := watchPage0, innerTubeBody := "\x7b\x7d", track := fun _ => (true, "") }

/-- Transport whose timed-text body has empty/non-numeric attributes; only
the URL `"u"` resolves. -/
def T10 : Transport :=
  { watchPage := watchPage0, innerTubeBody := "\x7b\x7d",
    track := fun u => (jsStrEq u "u", "<text start=\"\" dur=\"abc\">hi</text>") }

/-- Transport whose timed-text body has one segment; only the URL `"u"`
resolves. -/
def Tseg : Transport :=
  { watchPage := watchPage0, innerTubeBody := "\x7b\x7d",
    track := fun u => (jsStrEq u "u", "<text start=\"1\" dur=\"1\">x</text>") }

/-- A CAPTCHA watch page with no captions blob and no playability status. -/
def TC3 : Transport :=
  { watchPage := "class=\"g-recaptcha\"", innerTubeBody := "\x7b\x7d", track := fun _ => (false, "") }

/-- A captions structure with a single `en` track. -/
def capsEn : JVal := JVal.obj [("captionTracks", JVal.arr [mkTrack ("en", "u")])]

/-- A captions structure with an `en` track and an `fr` track. -/
def capsEnFr : JVal :=
  JVal.obj [("captionTracks", JVal.arr [mkTrack ("en", "u"), mkTrack ("fr", "w")])]

/-- A watch-page body whose captions JSON fragment contains two raw newline
characters inside a JSON string literal. -/
def watchPageC6 : String :=
  "\"captions\":\x7b\"playerCaptionsTracklistRenderer\":\x7b\"a\":\"x\n\ny\"\x7d\x7d,\"videoDetails"

/-- The JSON fragment isolated from `watchPageC6`. -/
def fragC6 : String :=
  "\x7b\"playerCaptionsTracklistRenderer\":\x7b\"a\":\"x\n\ny\"\x7d\x7d"

/-- Transport serving `watchPageC6`. -/
def TC6 : Transport :=
  { watchPage := watchPageC6, innerTubeBody := "\x7b\x7d", track := fun _ => (true, "") }

/-- The JSON fragment the HTML-scrape fetcher isolates: the part of the body
after the first `"captions":` marker, cut at the `,"videoDetails` boundary. -/
def htmlJsonFragment (body : String) : String :=
  ((jsSplit (((jsSplit body "\"captions\":").get? 1).getD "") ",\"videoDetails").get? 0).getD ""

/-! ### Claim theorems -/

/-- Claim C1: for every input string and optional config, `fetchTranscript`
first runs the HTML-scrape strategy; exactly when that attempt fails with the
EmptyTranscript error, the InnerTube strategy is attempted and its outcome
(result or error) becomes the call's outcome; any other error from the
HTML-scrape attempt propagates unchanged without the InnerTube strategy, and
an EmptyTranscript error from the InnerTube strategy is terminal. -/
theorem fetchTranscript_fallback_policy (T : Transport) (v : String)
    (c : Option TranscriptConfig) :
    (∀ r, fetchTranscriptWithHtmlScraping T v c = Except.ok r →
      fetchTranscript T v c = Except.ok r) ∧
    (∀ e, fetchTranscriptWithHtmlScraping T v c = Except.error e →
      isEmptyTranscriptError e = true →
      fetchTranscript T v c = fetchTranscriptWithInnerTube T v c) ∧
    (∀ e, fetchTranscriptWithHtmlScraping T v c = Except.error e →
      isEmptyTranscriptError e = false →
      fetchTranscript T v c = Except.error e) ∧
    (∀ e e', fetchTranscriptWithHtmlScraping T v c = Except.error e →
      isEmptyTranscriptError e = true →
      fetchTranscriptWithInnerTube T v c = Except.error e' →
      fetchTranscript T v c = Except.error e') := by
  refine ⟨?_, ?_, ?_, ?_⟩
  · intro r h
    simp [fetchTranscript, h]
  · intro e h he
    simp [fetchTranscript, h, he]
  · intro e h he
    simp [fetchTranscript, h, he]
  · intro e e' h he h'
    simp [fetchTranscript, h, he, h']

/-- Witness for C1: a transport on which the HTML-scrape strategy fails with
EmptyTranscript, so the call's outcome is the InnerTube strategy's outcome. -/
theorem fetchTranscript_fallback_policy_witness :
    fetchTranscript T0 vid0 none = fetchTranscriptWithInnerTube T0 vid0 none :=
  (fetchTranscript_fallback_policy T0 vid0 none).2.1
    (JsErr.typed (YtError.emptyTranscript vid0 "HTML scraping")) rfl rfl

/-- A successful HTML-scrape result is never the empty list. -/
theorem html_ok_ne_nil {T : Transport} {v : String} {c : Option TranscriptConfig}
    {r : List TranscriptResponse}
    (h : fetchTranscriptWithHtmlScraping T v c = Except.ok r) : r ≠ [] := by
  intro hnil
  subst hnil
  unfold fetchTranscriptWithHtmlScraping at h
  split at h
  · exact absurd h (by simp)
  · dsimp only at h
    split at h
    · split at h <;> (try split at h) <;> simp_all
    · split at h
      · exact absurd h (by simp)
      · split at h <;> simp_all

/-- A successful InnerTube result is never the empty list. -/
theorem inner_ok_ne_nil {T : Transport} {v : String} {c : Option TranscriptConfig}
    {r : List TranscriptResponse}
    (h : fetchTranscriptWithInnerTube T v c = Except.ok r) : r ≠ [] := by
  intro hnil
  subst hnil
  unfold fetchTranscriptWithInnerTube at h
  split at h
  · exact absurd h (by simp)
  · split at h
    · exact absurd h (by simp)
    · split at h
      · exact absurd h (by simp)
      · dsimp only at h
        split at h
        · exact absurd h (by simp)
        · split at h
          · exact absurd h (by simp)
          · split at h <;> simp_all

/-- Claim C2: a fetch strategy whose processor produces zero segments raises
the EmptyTranscript error for that strategy instead of returning, so a
successful return (from either strategy and from the public entry point) is
always a non-empty list of segments. -/
theorem fetchTranscript_never_empty :
    (∀ T v c r, fetchTranscriptWithHtmlScraping T v c = Except.ok r → r ≠ []) ∧
    (∀ T v c r, fetchTranscriptWithInnerTube T v c = Except.ok r → r ≠ []) ∧
    (∀ T v c r, fetchTranscript T v c = Except.ok r → r ≠ []) ∧
    (∀ T v c i, retrieveVideoId v = Except.ok i →
      1 < (jsSplit T.watchPage "\"captions\":").length →
      processTranscriptFromCaptions T
        (captionsFromSplit (jsSplit T.watchPage "\"captions\":")) v c = Except.ok [] →
      fetchTranscriptWithHtmlScraping T v c =
        Except.error (JsErr.typed (YtError.emptyTranscript v "HTML scraping"))) ∧
    (∀ T v c i jv, retrieveVideoId v = Except.ok i →
      jsonParse T.innerTubeBody = some jv → jsNullish jv = false →
      jsNullish (jsGet jv "captions") = false →
      processTranscriptFromCaptions T
        (jsGet (jsGet jv "captions") "playerCaptionsTracklistRenderer") v c = Except.ok [] →
      fetchTranscriptWithInnerTube T v c =
        Except.error (JsErr.typed (YtError.emptyTranscript v "InnerTube API"))) := by
  refine ⟨?_, ?_, ?_, ?_, ?_⟩
  · intro T v c r h
    exact html_ok_ne_nil h
  · intro T v c r h
    exact inner_ok_ne_nil h
  · intro T v c r h
    unfold fetchTranscript at h
    split at h
    · rename_i r1 heq
      obtain rfl : r1 = r := by injection h
      exact html_ok_ne_nil heq
    · split at h
      · exact inner_ok_ne_nil h
      · exact absurd h (by simp)
  · intro T v c i hi hsplit hproc
    unfold fetchTranscriptWithHtmlScraping
    rw [hi]
    dsimp only
    rw [if_neg (Nat.not_le.mpr hsplit), hproc]
    simp
  · intro T v c i jv hi hjson hnn hcap hproc
    unfold fetchTranscriptWithInnerTube
    rw [hi, hjson]
    simp [hnn, hcap, hproc]

/-- Witness for C2: on a transport whose timed-text body parses to zero
segments, the HTML-scrape strategy raises EmptyTranscript. -/
theorem fetchTranscript_never_empty_witness :
    fetchTranscriptWithHtmlScraping T0 vid0 none =
      Except.error (JsErr.typed (YtError.emptyTranscript vid0 "HTML scraping")) :=
  fetchTranscript_never_empty.2.2.2.1 T0 vid0 none vid0 rfl (by decide) rfl

/-- Claim C3: when the split of the watch-page body on `"captions":` yields
at most one part, the failure is classified in order: CAPTCHA marker →
TooManyRequests; missing `"playabilityStatus":` marker → VideoUnavailable;
otherwise TranscriptDisabled.  In particular a body with the CAPTCHA marker
always yields TooManyRequests, regardless of the playability marker. -/
theorem htmlScraping_failure_classification (T : Transport) (v : String)
    (c : Option TranscriptConfig) (hv : v.length = 11)
    (hsplit : (jsSplit T.watchPage "\"captions\":").length ≤ 1) :
    fetchTranscriptWithHtmlScraping T v c = Except.error (JsErr.typed
      (if containsSub T.watchPage "class=\"g-recaptcha\"" then YtError.tooManyRequests
       else if !containsSub T.watchPage "\"playabilityStatus\":" then YtError.videoUnavailable v
       else YtError.transcriptDisabled v)) ∧
    (containsSub T.watchPage "class=\"g-recaptcha\"" = true →
      fetchTranscriptWithHtmlScraping T v c =
        Except.error (JsErr.typed YtError.tooManyRequests)) := by
  have main : fetchTranscriptWithHtmlScraping T v c = Except.error (JsErr.typed
      (if containsSub T.watchPage "class=\"g-recaptcha\"" then YtError.tooManyRequests
       else if !containsSub T.watchPage "\"playabilityStatus\":" then YtError.videoUnavailable v
       else YtError.transcriptDisabled v)) := by
    unfold fetchTranscriptWithHtmlScraping retrieveVideoId
    rw [if_pos hv]
    dsimp only
    rw [if_pos hsplit]
    split <;> rename_i hc
    · simp [hc]
    · split <;> rename_i hp <;> simp_all
  refine ⟨main, fun hc => ?_⟩
  rw [main, hc]
  simp

/-- Witness for C3: a CAPTCHA page with no captions blob and no playability
marker is classified as TooManyRequests. -/
theorem htmlScraping_failure_classification_witness :
    fetchTranscriptWithHtmlScraping TC3 vid0 none =
      Except.error (JsErr.typed YtError.tooManyRequests) :=
  (htmlScraping_failure_classification TC3 vid0 none (by decide) (by decide)).2 (by decide)

/-- Claim C9 (implicit): when the InnerTube JSON response's `captions`
property is nullish (missing field, or a non-object response without such a
property), the destructuring throws an untyped TypeError, not a member of
the library's error taxonomy; and there is an input (`T0`) on which the
HTML-scrape attempt fails with EmptyTranscript and the overall
`fetchTranscript` call surfaces that untyped error. -/
theorem innerTube_untyped_destructuring :
    (∀ T v c jv, v.length = 11 →
      jsonParse T.innerTubeBody = some jv → jsNullish jv = false →
      jsNullish (jsGet jv "captions") = true →
      fetchTranscriptWithInnerTube T v c = Except.error
        (JsErr.untyped "TypeError: Cannot destructure property 'playerCaptionsTracklistRenderer'")) ∧
    (∀ e : YtError,
      JsErr.untyped "TypeError: Cannot destructure property 'playerCaptionsTracklistRenderer'" ≠
        JsErr.typed e) ∧
    fetchTranscriptWithHtmlScraping T0 vid0 none =
      Except.error (JsErr.typed (YtError.emptyTranscript vid0 "HTML scraping")) ∧
    fetchTranscript T0 vid0 none = Except.error
      (JsErr.untyped "TypeError: Cannot destructure property 'playerCaptionsTracklistRenderer'") := by
  refine ⟨?_, fun e h => JsErr.noConfusion h, rfl, rfl⟩
  intro T v c jv hv hjson hnn hcap
  unfold fetchTranscriptWithInnerTube retrieveVideoId
  rw [if_pos hv, hjson]
  simp [hnn, hcap]

/-- Witness for C9: the InnerTube response `{}` produces the untyped
destructuring TypeError. -/
theorem innerTube_untyped_destructuring_witness :
    fetchTranscriptWithInnerTube T0 vid0 none = Except.error
      (JsErr.untyped "TypeError: Cannot destructure property 'playerCaptionsTracklistRenderer'") :=
  innerTube_untyped_destructuring.1 T0 vid0 none (JVal.obj []) (by decide) rfl rfl rfl

/-- `(a ++ b).data = a.data ++ b.data` (definitional, recorded for `simp`). -/
theorem strData_append (a b : String) : (a ++ b).data = a.data ++ b.data := rfl

/-- A literal matches itself followed by anything. -/
theorem expectLit_self (p : List Char) : ∀ r, expectLit p (p ++ r) = some r := by
  induction p with
  | nil => intro r; rfl
  | cons c cs ih => intro r; simp [expectLit, ih]

/-- `takeUntilCh` splits at the first occurrence of `stop`. -/
theorem takeUntilCh_split (stop : Char) (pre : List Char)
    (h : pre.all (fun c => !(c = stop)) = true) :
    ∀ r, takeUntilCh stop (pre ++ stop :: r) = some (pre, r) := by
  induction pre with
  | nil => intro r; simp [takeUntilCh]
  | cons c cs ih =>
    intro r
    simp only [List.all_cons, Bool.and_eq_true] at h
    have hc : ¬ c = stop := by simpa using h.1
    simp [takeUntilCh, hc, ih h.2]

/-- One rendered element matches at the start of a body, consuming exactly
itself. -/
theorem matchXmlText_render (s d t : String) (h : wfXmlSeg (s, d, t) = true) (rest : List Char) :
    matchXmlText ((renderXmlSeg (s, d, t)).data ++ rest) = some ((s, d, t), rest) := by
  simp only [wfXmlSeg, Bool.and_eq_true] at h
  obtain ⟨⟨hs, hd⟩, ht⟩ := h
  have hdata : (renderXmlSeg (s, d, t)).data ++ rest =
      xmlOpen ++ (s.data ++ '"' ::
        (xmlMid ++ (d.data ++ '"' :: '>' ::
          (t.data ++ '<' :: (xmlClose ++ rest))))) := by
    simp [renderXmlSeg, strData_append, xmlOpen, xmlMid, xmlClose, List.append_assoc]
  rw [hdata]
  simp only [matchXmlText, expectLit_self, takeUntilCh_split '"' s.data hs,
    takeUntilCh_split '"' d.data hd, takeUntilCh_split '<' t.data ht]

/-- A rendered element is non-empty. -/
theorem renderXmlSeg_len_pos (g : String × String × String) :
    0 < (renderXmlSeg g).data.length := by
  obtain ⟨s, d, t⟩ := g
  have e : (renderXmlSeg (s, d, t)).data =
      "<text start=\"".data ++ (s.data ++ ("\" dur=\"".data ++ (d.data ++
        ("\">".data ++ (t.data ++ "</text>".data))))) := by
    simp [renderXmlSeg, strData_append, List.append_assoc]
  rw [e]
  simp

/-- Defining equation of `scanXml` at successor fuel. -/
theorem scanXml_succ (fuel : Nat) (s : List Char) :
    scanXml (fuel + 1) s =
      match matchXmlText s with
      | some (seg, rest) => seg :: scanXml fuel rest
      | none =>
        match s with
        | [] => []
        | _ :: cs => scanXml fuel cs := rfl

/-- The `matchAll` scan recovers a rendered well-formed segment list, for any
sufficient fuel. -/
theorem scanXml_render (segs : List (String × String × String))
    (h : ∀ g ∈ segs, wfXmlSeg g = true) :
    ∀ fuel, (renderXmlSegs segs).data.length < fuel →
      scanXml fuel (renderXmlSegs segs).data = segs := by
  induction segs with
  | nil =>
    intro fuel hf
    match fuel, hf with
    | f + 1, _ => rfl
  | cons g rest ih =>
    intro fuel hf
    have hdata : (renderXmlSegs (g :: rest)).data =
        (renderXmlSeg g).data ++ (renderXmlSegs rest).data := by
      simp [renderXmlSegs, strData_append]
    match fuel, hf with
    | f + 1, hf =>
      obtain ⟨s, d, t⟩ := g
      rw [hdata, scanXml_succ, matchXmlText_render s d t (h _ (by simp)) _]
      have hlen : (renderXmlSegs rest).data.length < f := by
        rw [hdata] at hf
        have := renderXmlSeg_len_pos (s, d, t)
        simp only [List.length_append] at hf
        omega
      dsimp only
      rw [ih (fun g hg => h g (List.mem_cons_of_mem _ hg)) f hlen]

/-- `xmlSegments` recovers a rendered well-formed segment list. -/
theorem xmlSegments_render (segs : List (String × String × String))
    (h : ∀ g ∈ segs, wfXmlSeg g = true) :
    xmlSegments (renderXmlSegs segs) = segs :=
  scanXml_render segs h _ (Nat.lt_succ_self _)

/-- Claim C5: the timed-text parse produces one segment per element of the
shape `<text start="S" dur="D">TEXT</text>` in document order, with the
attribute values and inner text captured verbatim (no entity decoding, no
trimming), and offsets/durations obtained by float-parsing the attributes;
in particular the spec's example body yields exactly
`{offset 1.5, duration 2.0, "Hello"}` then `{offset 3.5, duration 1.0, "World"}`. -/
theorem timedText_parsing :
    (∀ segs : List (String × String × String), (∀ g ∈ segs, wfXmlSeg g = true) →
      xmlSegments (renderXmlSegs segs) = segs) ∧
    xmlSegments "<text start=\"1.5\" dur=\"2.0\">Hello</text><text start=\"3.5\" dur=\"1.0\">World</text>" =
      [("1.5", "2.0", "Hello"), ("3.5", "1.0", "World")] ∧
    (xmlSegments "<text start=\"1.5\" dur=\"2.0\">Hello</text><text start=\"3.5\" dur=\"1.0\">World</text>").map
        (fun g => (parseFloat g.1, parseFloat g.2.1, g.2.2)) =
      [(JsNum.num (mkRat 3 2), JsNum.num (mkRat 2 1), "Hello"),
       (JsNum.num (mkRat 7 2), JsNum.num (mkRat 1 1), "World")] :=
  ⟨xmlSegments_render, by decide, by decide⟩

/-- Witness for C5: the general round-trip applied to one concrete segment
list. -/
theorem timedText_parsing_witness :
    xmlSegments (renderXmlSegs [("1.5", "2.0", "Hello"), ("3.5", "1.0", "World")]) =
      [("1.5", "2.0", "Hello"), ("3.5", "1.0", "World")] :=
  timedText_parsing.1 [("1.5", "2.0", "Hello"), ("3.5", "1.0", "World")] (by decide)

/-- Claim C10 (implicit): the timed-text parser performs no numeric
validation: an element whose `start`/`dur` values are empty or non-numeric
(any quote-free text) still matches and produces a segment; float-parsing
such a value gives NaN; and such segments count toward the non-emptiness
check, so a body consisting only of such elements is returned as a
successful non-empty transcript (`T10`'s body is
`<text start="" dur="abc">hi</text>`). -/
theorem timedText_nan_segments :
    (∀ s d t : String, wfXmlSeg (s, d, t) = true →
      xmlSegments (renderXmlSegs [(s, d, t)]) = [(s, d, t)]) ∧
    parseFloat "" = JsNum.nan ∧
    parseFloat "abc" = JsNum.nan ∧
    fetchTranscriptWithHtmlScraping T10 vid0 none = Except.ok
      [{ text := "hi", duration := JsNum.nan, offset := JsNum.nan, lang := JVal.str "en" }] ∧
    fetchTranscript T10 vid0 none = Except.ok
      [{ text := "hi", duration := JsNum.nan, offset := JsNum.nan, lang := JVal.str "en" }] := by
  refine ⟨?_, rfl, rfl, rfl, rfl⟩
  intro s d t h
  exact xmlSegments_render [(s, d, t)] (by simpa using h)

/-- Witness for C10: a malformed element with empty `start` and non-numeric
`dur` still parses to one segment. -/
theorem timedText_nan_segments_witness :
    xmlSegments (renderXmlSegs [("", "abc", "hi")]) = [("", "abc", "hi")] :=
  timedText_nan_segments.1 "" "abc" "hi" (by decide)

/-- Reading `languageCode` on a well-formed track. -/
theorem jsGet_mkTrack_code (p : String × String) :
    jsGet (mkTrack p) "languageCode" = JVal.str p.1 := rfl

/-- Reading `baseUrl` on a well-formed track. -/
theorem jsGet_mkTrack_url (p : String × String) :
    jsGet (mkTrack p) "baseUrl" = JVal.str p.2 := rfl

/-- Property access on a well-formed track never throws. -/
theorem jsIndex_mkTrack (p : String × String) (k : String) :
    jsIndex (mkTrack p) k = Except.ok (jsGet (mkTrack p) k) := rfl

/-- `.some` over well-formed tracks is the boolean existence test on the
language codes. -/
theorem jsSomeLang_mkTracks (ps : List (String × String)) (l : String) :
    jsSomeLang (ps.map mkTrack) l = Except.ok (ps.any (fun p => p.1 = l)) := by
  induction ps with
  | nil => rfl
  | cons p ps ih =>
    by_cases hp : p.1 = l <;>
      simp [jsSomeLang, jsIndex_mkTrack, jsGet_mkTrack_code, jsStrEq, hp, ih]

/-- `.find` over well-formed tracks returns the first matching track
(`undefined` when none matches). -/
theorem jsFindLang_mkTracks (ps : List (String × String)) (l : String) :
    jsFindLang (ps.map mkTrack) l = Except.ok
      (match ps.find? (fun p => p.1 = l) with
       | some q => mkTrack q
       | none => JVal.undef) := by
  induction ps with
  | nil => rfl
  | cons p ps ih =>
    by_cases hp : p.1 = l <;>
      simp [jsFindLang, jsIndex_mkTrack, jsGet_mkTrack_code, jsStrEq, hp, ih, List.find?]

/-- `.map` of the language codes over well-formed tracks. -/
theorem jsMapCodes_mkTracks (ps : List (String × String)) :
    jsMapCodes (ps.map mkTrack) = Except.ok (ps.map (fun p => JVal.str p.1)) := by
  induction ps with
  | nil => rfl
  | cons p ps ih => simp [jsMapCodes, jsIndex_mkTrack, jsGet_mkTrack_code, ih]

/-- With a requested language, `results.map` stamps every segment with that
language. -/
theorem mapSegs_some (l : String) (tracks : JVal)
    (res : List (String × String × String)) :
    mapSegs (some l) tracks res = Except.ok (res.map (fun g =>
      { text := g.2.2, duration := parseFloat g.2.1, offset := parseFloat g.1,
        lang := JVal.str l })) := by
  induction res with
  | nil => rfl
  | cons g rest ih =>
    obtain ⟨st, du, tx⟩ := g
    simp [mapSegs, ih]

/-- With no requested language and a non-empty well-formed track array,
`results.map` stamps every segment with the first track's language code. -/
theorem mapSegs_none (p0 : String × String) (ts : List JVal)
    (res : List (String × String × String)) :
    mapSegs none (JVal.arr (mkTrack p0 :: ts)) res = Except.ok (res.map (fun g =>
      { text := g.2.2, duration := parseFloat g.2.1, offset := parseFloat g.1,
        lang := JVal.str p0.1 })) := by
  induction res with
  | nil => rfl
  | cons g rest ih =>
    obtain ⟨st, du, tx⟩ := g
    have h0 : jsIndex (JVal.arr (mkTrack p0 :: ts)) "0" = Except.ok (mkTrack p0) := rfl
    simp [mapSegs, h0, jsIndex_mkTrack, jsGet_mkTrack_code, ih]

/-- Counterexample for C4 as stated: with the single track `en` and the
requested language `""` (a language was passed in the config), the processor
succeeds by fetching the `en` track — whose `languageCode` does not equal the
requested language — instead of selecting a track matching the request:
JS truthiness treats the empty string like an absent language for track
selection, while `??` still stamps the segments with `lang = ""`. -/
theorem processTranscript_selection_claim_cex :
    processTranscriptFromCaptions Tseg capsEn vid0 (some { lang := some "" }) =
      Except.ok [{ text := "x", duration := JsNum.num 1, offset := JsNum.num 1,
                   lang := JVal.str "" }] ∧
    jsStrEq (jsGet (mkTrack ("en", "u")) "languageCode") "" = false ∧
    jsGet capsEn "captionTracks" = JVal.arr [mkTrack ("en", "u")] := by
  refine ⟨rfl, rfl, rfl⟩

/-- Selection with a requested non-empty language: the first track whose
`languageCode` matches is fetched and stamps the segments. -/
theorem processSel_requested (T : Transport) (captions : JVal) (v : String)
    (cfg : Option TranscriptConfig) (ps : List (String × String)) (l : String)
    (q : String × String)
    (hfal : jsFalsy captions = false) (hobj : jsObjLike captions = true)
    (hkey : jsHasKey captions "captionTracks" = true)
    (htr : jsGet captions "captionTracks" = JVal.arr (ps.map mkTrack))
    (hcfg : Option.bind cfg TranscriptConfig.lang = some l) (hl : l ≠ "")
    (hfind : ps.find? (fun p => p.1 = l) = some q) :
    processTranscriptFromCaptions T captions v cfg =
      (if (T.track (JVal.str q.2)).1 then
        Except.ok ((xmlSegments (T.track (JVal.str q.2)).2).map (fun g =>
          { text := g.2.2, duration := parseFloat g.2.1, offset := parseFloat g.1,
            lang := JVal.str l }))
      else Except.error (JsErr.typed (YtError.transcriptNotAvailable v))) := by
  have hq : q.1 = l := by simpa using List.find?_some hfind
  have hany : (ps.any (fun p => p.1 = l)) = true := by
    simp only [List.any_eq_true]
    exact ⟨q, List.mem_of_find?_eq_some hfind, by simpa using hq⟩
  have htruthy : truthyOptStr (some l) = true := by simp [truthyOptStr, hl]
  unfold processTranscriptFromCaptions
  rw [hcfg, htr]
  simp only [hfal, hobj, hkey, htruthy, Bool.not_true, Bool.false_eq_true, if_false, if_true,
    jsSomeLang_mkTracks, hany, jsFindLang_mkTracks, hfind, Option.getD_some,
    jsIndex_mkTrack, jsGet_mkTrack_url]
  cases hresp : (T.track (JVal.str q.2)).1 <;>
    simp [hresp, jsIndex_mkTrack, jsGet_mkTrack_url, mapSegs_some]

/-- Selection with no requested language: the first track is fetched and its
`languageCode` stamps the segments. -/
theorem processSel_noRequest (T : Transport) (captions : JVal) (v : String)
    (cfg : Option TranscriptConfig) (p0 : String × String) (ps : List (String × String))
    (hfal : jsFalsy captions = false) (hobj : jsObjLike captions = true)
    (hkey : jsHasKey captions "captionTracks" = true)
    (htr : jsGet captions "captionTracks" = JVal.arr ((p0 :: ps).map mkTrack))
    (hcfg : Option.bind cfg TranscriptConfig.lang = none) :
    processTranscriptFromCaptions T captions v cfg =
      (if (T.track (JVal.str p0.2)).1 then
        Except.ok ((xmlSegments (T.track (JVal.str p0.2)).2).map (fun g =>
          { text := g.2.2, duration := parseFloat g.2.1, offset := parseFloat g.1,
            lang := JVal.str p0.1 }))
      else Except.error (JsErr.typed (YtError.transcriptNotAvailable v))) := by
  have h0 : jsIndex (JVal.arr (mkTrack p0 :: ps.map mkTrack)) "0" = Except.ok (mkTrack p0) := rfl
  unfold processTranscriptFromCaptions
  rw [hcfg, htr]
  simp only [hfal, hobj, hkey, truthyOptStr, Bool.not_true, Bool.false_eq_true, if_false,
    List.map_cons, h0, jsIndex_mkTrack, jsGet_mkTrack_url]
  cases hresp : (T.track (JVal.str p0.2)).1 <;>
    simp [hresp, jsIndex_mkTrack, jsGet_mkTrack_url, mapSegs_none]

/-- Selection with a requested EMPTY language: the first track is fetched
(truthiness skips the match), while the segments are stamped with `""`. -/
theorem processSel_emptyRequest (T : Transport) (captions : JVal) (v : String)
    (cfg : Option TranscriptConfig) (p0 : String × String) (ps : List (String × String))
    (hfal : jsFalsy captions = false) (hobj : jsObjLike captions = true)
    (hkey : jsHasKey captions "captionTracks" = true)
    (htr : jsGet captions "captionTracks" = JVal.arr ((p0 :: ps).map mkTrack))
    (hcfg : Option.bind cfg TranscriptConfig.lang = some "") :
    processTranscriptFromCaptions T captions v cfg =
      (if (T.track (JVal.str p0.2)).1 then
        Except.ok ((xmlSegments (T.track (JVal.str p0.2)).2).map (fun g =>
          { text := g.2.2, duration := parseFloat g.2.1, offset := parseFloat g.1,
            lang := JVal.str "" }))
      else Except.error (JsErr.typed (YtError.transcriptNotAvailable v))) := by
  have h0 : jsIndex (JVal.arr (mkTrack p0 :: ps.map mkTrack)) "0" = Except.ok (mkTrack p0) := rfl
  unfold processTranscriptFromCaptions
  rw [hcfg, htr]
  simp only [hfal, hobj, hkey, truthyOptStr, Bool.not_true,
    Bool.false_eq_true, if_false, List.map_cons, h0, jsIndex_mkTrack, jsGet_mkTrack_url]
  cases hresp : (T.track (JVal.str p0.2)).1 <;>
    simp [hresp, jsIndex_mkTrack, jsGet_mkTrack_url, mapSegs_some]

/-- Claim C4, amended: "a language was requested" must be read as a
NON-EMPTY language (JS truthiness).  (a) If a non-empty language is
requested, the selected (fetched) track is the first track whose
`languageCode` equals it exactly and every emitted segment carries `lang`
equal to it; (b) if no language is requested, the first track is selected
and every emitted segment carries the first track's `languageCode`; (c) if
the empty string is requested, the first track is selected as in (b), while
emitted segments carry `lang` equal to the empty string. -/
theorem processTranscript_selection_amended :
    (∀ (T : Transport) (captions : JVal) (v : String) (cfg : Option TranscriptConfig)
        (ps : List (String × String)) (l : String) (q : String × String),
      jsFalsy captions = false → jsObjLike captions = true →
      jsHasKey captions "captionTracks" = true →
      jsGet captions "captionTracks" = JVal.arr (ps.map mkTrack) →
      Option.bind cfg TranscriptConfig.lang = some l → l ≠ "" →
      ps.find? (fun p => p.1 = l) = some q →
      processTranscriptFromCaptions T captions v cfg =
        (if (T.track (JVal.str q.2)).1 then
          Except.ok ((xmlSegments (T.track (JVal.str q.2)).2).map (fun g =>
            { text := g.2.2, duration := parseFloat g.2.1, offset := parseFloat g.1,
              lang := JVal.str l }))
        else Except.error (JsErr.typed (YtError.transcriptNotAvailable v)))) ∧
    (∀ (T : Transport) (captions : JVal) (v : String) (cfg : Option TranscriptConfig)
        (p0 : String × String) (ps : List (String × String)),
      jsFalsy captions = false → jsObjLike captions = true →
      jsHasKey captions "captionTracks" = true →
      jsGet captions "captionTracks" = JVal.arr ((p0 :: ps).map mkTrack) →
      Option.bind cfg TranscriptConfig.lang = none →
      processTranscriptFromCaptions T captions v cfg =
        (if (T.track (JVal.str p0.2)).1 then
          Except.ok ((xmlSegments (T.track (JVal.str p0.2)).2).map (fun g =>
            { text := g.2.2, duration := parseFloat g.2.1, offset := parseFloat g.1,
              lang := JVal.str p0.1 }))
        else Except.error (JsErr.typed (YtError.transcriptNotAvailable v)))) ∧
    (∀ (T : Transport) (captions : JVal) (v : String) (cfg : Option TranscriptConfig)
        (p0 : String × String) (ps : List (String × String)),
      jsFalsy captions = false → jsObjLike captions = true →
      jsHasKey captions "captionTracks" = true →
      jsGet captions "captionTracks" = JVal.arr ((p0 :: ps).map mkTrack) →
      Option.bind cfg TranscriptConfig.lang = some "" →
      processTranscriptFromCaptions T captions v cfg =
        (if (T.track (JVal.str p0.2)).1 then
          Except.ok ((xmlSegments (T.track (JVal.str p0.2)).2).map (fun g =>
            { text := g.2.2, duration := parseFloat g.2.1, offset := parseFloat g.1,
              lang := JVal.str "" }))
        else Except.error (JsErr.typed (YtError.transcriptNotAvailable v)))) :=
  ⟨processSel_requested, processSel_noRequest, processSel_emptyRequest⟩

/-- Witness for the amended C4: requesting `fr` against tracks `en`, `fr`
fetches the `fr` track's URL and stamps segments with `fr`. -/
theorem processTranscript_selection_amended_witness :
    processTranscriptFromCaptions
        { watchPage := "", innerTubeBody := "",
          track := fun u => (jsStrEq u "w", "<text start=\"1\" dur=\"1\">x</text>") }
        capsEnFr vid0 (some { lang := some "fr" }) =
      Except.ok [{ text := "x", duration := JsNum.num 1, offset := JsNum.num 1,
                   lang := JVal.str "fr" }] := by
  have h := processTranscript_selection_amended.1
    { watchPage := "", innerTubeBody := "",
      track := fun u => (jsStrEq u "w", "<text start=\"1\" dur=\"1\">x</text>") }
    capsEnFr vid0 (some { lang := some "fr" }) [("en", "u"), ("fr", "w")] "fr" ("fr", "w")
    rfl rfl rfl rfl rfl (by decide) (by decide)
  simpa using h

/-- A list is a prefix of itself followed by anything. -/
theorem isPrefixB_self (sub : List Char) : ∀ r, isPrefixB sub (sub ++ r) = true := by
  induction sub with
  | nil => intro r; rfl
  | cons c cs ih => intro r; simp [isPrefixB, ih]

/-- A prefix occurrence is an occurrence. -/
theorem containsB_of_isPrefixB (sub l : List Char) (h : isPrefixB sub l = true) :
    containsB sub l = true := by
  cases l <;> simp [containsB, h]

/-- `containsB` finds an occurrence anywhere. -/
theorem containsB_intro (sub : List Char) : ∀ pre post,
    containsB sub (pre ++ (sub ++ post)) = true := by
  intro pre
  induction pre with
  | nil => intro post; exact containsB_of_isPrefixB sub _ (isPrefixB_self sub post)
  | cons c cs ih => intro post; simp [containsB, ih post]

/-- Every element of the joined language-code list occurs in the join. -/
theorem joinComma_decomp (ps : List (String × String)) (p : String × String) (h : p ∈ ps) :
    ∃ pre post,
      (joinComma (ps.map fun r => JVal.str r.1)).data = pre ++ (p.1.data ++ post) := by
  induction ps with
  | nil => cases h
  | cons p0 rest ih =>
    cases rest with
    | nil =>
      have hp : p = p0 := by simpa using h
      subst hp
      exact ⟨[], [], by simp [joinComma, jvalJoinPiece]⟩
    | cons p1 rest2 =>
      rcases List.mem_cons.mp h with rfl | hmem
      · refine ⟨[], (", " ++ joinComma ((p1 :: rest2).map fun r => JVal.str r.1)).data, ?_⟩
        simp [joinComma, jvalJoinPiece, strData_append, List.append_assoc]
      · obtain ⟨pre, post, hpre⟩ := ih hmem
        refine ⟨(p0.1 ++ ", ").data ++ pre, post, ?_⟩
        simp only [List.map_cons] at hpre
        simp [joinComma, jvalJoinPiece, strData_append, List.append_assoc, hpre]

/-- The LanguageNotAvailable message mentions every available language code. -/
theorem langNA_message_contains (l v : String) (ps : List (String × String))
    (p : String × String) (h : p ∈ ps) :
    containsSub (YtError.languageNotAvailable l (ps.map fun r => JVal.str r.1) v).message
      p.1 = true := by
  obtain ⟨pre, post, hdec⟩ := joinComma_decomp ps p h
  unfold containsSub
  have hmsg : (YtError.languageNotAvailable l (ps.map fun r => JVal.str r.1) v).message.data =
      (ytPrefix ++ "No transcripts are available in " ++ l ++ " this video (" ++ v ++
        "). Available languages: ").data ++ (pre ++ (p.1.data ++ post)) := by
    simp [YtError.message, strData_append, List.append_assoc, hdec]
  rw [hmsg, ← List.append_assoc]
  exact containsB_intro p.1.data _ post

/-- Counterexample for C7 as stated: a track list `en`, `fr` and the
requested language `""` (passed in the config, matching no track exactly)
does NOT fail with LanguageNotAvailable — the processor succeeds via the
first track, because the empty string is falsy so the availability check is
skipped. -/
theorem languageNotAvailable_claim_cex :
    processTranscriptFromCaptions Tseg capsEnFr vid0 (some { lang := some "" }) =
      Except.ok [{ text := "x", duration := JsNum.num 1, offset := JsNum.num 1,
                   lang := JVal.str "" }] ∧
    jsStrEq (jsGet (mkTrack ("en", "u")) "languageCode") "" = false ∧
    jsStrEq (jsGet (mkTrack ("fr", "w")) "languageCode") "" = false ∧
    jsGet capsEnFr "captionTracks" = JVal.arr [mkTrack ("en", "u"), mkTrack ("fr", "w")] :=
  ⟨rfl, rfl, rfl, rfl⟩

/-- Claim C7, amended: for every captions structure containing a track list,
if a NON-EMPTY language was requested and no track's `languageCode` equals it
exactly, the processor fails with LanguageNotAvailable carrying every
available track's language code, and the error's message contains each of
those codes.  (A requested empty-string language never triggers this error:
it is falsy, see the counterexample.) -/
theorem languageNotAvailable_amended (T : Transport) (captions : JVal) (v : String)
    (cfg : Option TranscriptConfig) (ps : List (String × String)) (l : String)
    (hfal : jsFalsy captions = false) (hobj : jsObjLike captions = true)
    (hkey : jsHasKey captions "captionTracks" = true)
    (htr : jsGet captions "captionTracks" = JVal.arr (ps.map mkTrack))
    (hcfg : Option.bind cfg TranscriptConfig.lang = some l) (hl : l ≠ "")
    (hno : ∀ p ∈ ps, p.1 ≠ l) :
    processTranscriptFromCaptions T captions v cfg =
      Except.error (JsErr.typed
        (YtError.languageNotAvailable l (ps.map fun r => JVal.str r.1) v)) ∧
    ∀ p ∈ ps,
      containsSub (YtError.languageNotAvailable l (ps.map fun r => JVal.str r.1) v).message
        p.1 = true := by
  constructor
  · have hany : ps.any (fun p => p.1 = l) = false := by
      cases hA : ps.any (fun p => p.1 = l)
      · rfl
      · exfalso
        obtain ⟨p, hp, hpe⟩ := List.any_eq_true.mp hA
        exact hno p hp (by simpa using hpe)
    have htruthy : truthyOptStr (some l) = true := by simp [truthyOptStr, hl]
    unfold processTranscriptFromCaptions
    rw [hcfg, htr]
    simp only [hfal, hobj, hkey, htruthy, Bool.not_true, Bool.false_eq_true, if_false, if_true,
      jsSomeLang_mkTracks, hany, jsMapCodes_mkTracks, Option.getD_some]
  · intro p hp
    exact langNA_message_contains l v ps p hp

/-- Witness for the amended C7: requesting `de` against tracks `en`, `fr`
fails with LanguageNotAvailable whose message mentions both `en` and `fr`. -/
theorem languageNotAvailable_amended_witness :
    processTranscriptFromCaptions Tseg capsEnFr vid0 (some { lang := some "de" }) =
      Except.error (JsErr.typed (YtError.languageNotAvailable "de"
        [JVal.str "en", JVal.str "fr"] vid0)) ∧
    containsSub (YtError.languageNotAvailable "de"
      [JVal.str "en", JVal.str "fr"] vid0).message "en" = true ∧
    containsSub (YtError.languageNotAvailable "de"
      [JVal.str "en", JVal.str "fr"] vid0).message "fr" = true := by
  have h := languageNotAvailable_amended Tseg capsEnFr vid0 (some { lang := some "de" })
    [("en", "u"), ("fr", "w")] "de" rfl rfl rfl rfl rfl (by decide) (by decide)
  exact ⟨by simpa using h.1, by simpa using h.2 ("en", "u") (by simp),
    by simpa using h.2 ("fr", "w") (by simp)⟩

/-- Counterexample for C6 as stated: `watchPageC6`'s isolated JSON fragment
contains two raw newlines inside a JSON string literal.  The code strips only
the FIRST newline (JS `replace` with a string pattern), so the parse fails
and the captions value is absent; stripping ALL newlines — what the claim
says — would parse successfully to a present captions value. -/
theorem captions_newline_strip_cex :
    htmlJsonFragment watchPageC6 = fragC6 ∧
    captionsFromSplit (jsSplit watchPageC6 "\"captions\":") = JVal.undef ∧
    jsonParse (replaceFirst fragC6 "\n" "") = none ∧
    (match jsonParse (stripAllNewlines fragC6) with
     | some jv => jsGet jv "playerCaptionsTracklistRenderer"
     | none => JVal.undef) = JVal.obj [("a", JVal.str "xy")] ∧
    fetchTranscriptWithHtmlScraping TC6 vid0 none =
      Except.error (JsErr.typed (YtError.transcriptDisabled vid0)) :=
  ⟨rfl, rfl, rfl, rfl, rfl⟩

/-- Claim C6, amended: after a successful split on the captions marker, the
JSON fragment is isolated as the text up to the `,"videoDetails` boundary,
the FIRST stray newline character (not all of them) is stripped, and the
fragment is parsed as JSON; a parse failure yields an absent captions value
handed to the shared processor — no error at this stage (the processor then
reports TranscriptDisabled for the absent value); a parse success hands the
fragment's `playerCaptionsTracklistRenderer` to the processor. -/
theorem captions_extraction_amended (T : Transport) (v : String)
    (c : Option TranscriptConfig) (hv : v.length = 11)
    (hsplit : 1 < (jsSplit T.watchPage "\"captions\":").length) :
    (captionsFromSplit (jsSplit T.watchPage "\"captions\":") =
      match jsonParse (replaceFirst (htmlJsonFragment T.watchPage) "\n" "") with
      | some jv => jsGet jv "playerCaptionsTracklistRenderer"
      | none => JVal.undef) ∧
    (jsonParse (replaceFirst (htmlJsonFragment T.watchPage) "\n" "") = none →
      fetchTranscriptWithHtmlScraping T v c =
        Except.error (JsErr.typed (YtError.transcriptDisabled v))) ∧
    (∀ jv, jsonParse (replaceFirst (htmlJsonFragment T.watchPage) "\n" "") = some jv →
      fetchTranscriptWithHtmlScraping T v c =
        match processTranscriptFromCaptions T (jsGet jv "playerCaptionsTracklistRenderer") v c with
        | Except.error e => Except.error e
        | Except.ok processed =>
          if processed.length = 0 then
            Except.error (JsErr.typed (YtError.emptyTranscript v "HTML scraping"))
          else Except.ok processed) := by
  have hdefn : captionsFromSplit (jsSplit T.watchPage "\"captions\":") =
      match jsonParse (replaceFirst (htmlJsonFragment T.watchPage) "\n" "") with
      | some jv => jsGet jv "playerCaptionsTracklistRenderer"
      | none => JVal.undef := rfl
  refine ⟨hdefn, ?_, ?_⟩
  · intro h
    have hcap : captionsFromSplit (jsSplit T.watchPage "\"captions\":") = JVal.undef := by
      rw [hdefn, h]
    unfold fetchTranscriptWithHtmlScraping retrieveVideoId
    rw [if_pos hv]
    dsimp only
    rw [if_neg (Nat.not_le.mpr hsplit), hcap]
    rfl
  · intro jv h
    have hcap : captionsFromSplit (jsSplit T.watchPage "\"captions\":") =
        jsGet jv "playerCaptionsTracklistRenderer" := by
      rw [hdefn, h]
    unfold fetchTranscriptWithHtmlScraping retrieveVideoId
    rw [if_pos hv]
    dsimp only
    rw [if_neg (Nat.not_le.mpr hsplit), hcap]

/-- Witness for the amended C6: on `TC6` the stripped fragment still fails to
parse, so the captions value is absent and the processor reports
TranscriptDisabled (no extraction-stage error). -/
theorem captions_extraction_amended_witness :
    fetchTranscriptWithHtmlScraping TC6 vid0 none =
      Except.error (JsErr.typed (YtError.transcriptDisabled vid0)) :=
  (captions_extraction_amended TC6 vid0 none (by decide) (by decide)).2.1 rfl

/-- A literal matches itself (case-insensitively) followed by anything. -/
theorem strCI_self (p : List Char) : ∀ r, strCI p (p ++ r) = some r := by
  induction p with
  | nil => intro r; rfl
  | cons c cs ih => intro r; simp [strCI, charCI, ih]

/-- A filter that rejects the empty remainder and every remainder headed by a
character of `l` rejects all `starCands` candidates. -/
theorem filterMap_starCands_allnil {α : Type} (f : List Char → Option α) (p : Char → Bool) :
    ∀ l, f [] = none → (∀ c cs, c ∈ l → f (c :: cs) = none) →
      (starCands p l).filterMap f = [] := by
  intro l
  induction l with
  | nil => intro h0 _; simp [starCands, h0]
  | cons c cs ih =>
    intro h0 hc
    by_cases hp : p c = true
    · simp [starCands, hp, List.filterMap_append,
        ih h0 (fun a as ha => hc a as (List.mem_cons_of_mem _ ha)),
        hc c cs (List.mem_cons_self _ _)]
    · simp only [starCands, Bool.not_eq_true] at hp ⊢
      simp [hp, hc c cs (List.mem_cons_self _ _)]

/-- The `plusCands` analogue of `filterMap_starCands_allnil`. -/
theorem filterMap_plusCands_allnil {α : Type} (f : List Char → Option α) (p : Char → Bool) :
    ∀ l, f [] = none → (∀ c cs, c ∈ l → f (c :: cs) = none) →
      (plusCands p l).filterMap f = [] := by
  intro l h0 hc
  cases l with
  | nil => rfl
  | cons c cs =>
    by_cases hp : p c = true
    · simp only [plusCands, hp, if_true]
      exact filterMap_starCands_allnil f p cs h0
        (fun a as ha => hc a as (List.mem_cons_of_mem _ ha))
    · simp only [plusCands, Bool.not_eq_true] at hp ⊢
      simp [hp]

/-- An identifier character is not a slash. -/
theorem consumeStep_of_idChar (c : Char) (cs : List Char) (h : isIdChar c = true) :
    consumeStep '/' (c :: cs) = none := by
  have : ¬ c = '/' := by
    intro he
    subst he
    simp [isIdChar] at h
  simp [consumeStep, this]

/-- An identifier character is neither `?` nor `&`. -/
theorem a3Step_of_idChar (c : Char) (cs : List Char) (h : isIdChar c = true) :
    a3Step (c :: cs) = none := by
  have h1 : ¬ c = '?' := by intro he; subst he; simp [isIdChar] at h
  have h2 : ¬ c = '&' := by intro he; subst he; simp [isIdChar] at h
  simp [a3Step, h1, h2]

/-- The capture group succeeds on an 11-character identifier remainder. -/
theorem finishCap_of_id (l : List Char) (hall : l.all isIdChar = true)
    (hlen : l.length = 11) : finishCap l = some l := by
  have ht : l.take 11 = l := List.take_of_length_le (by omega)
  simp [finishCap, ht, hall, hlen]

/-- Defining equation of the scan at a non-empty input. -/
theorem scanRe_succ (c : Char) (cs : List Char) :
    scanRe (c :: cs) =
      match matchAt (c :: cs) with
      | some cap => some cap
      | none => scanRe cs := rfl

/-- A failing position is skipped. -/
theorem scanRe_cons_none {c : Char} {cs : List Char} (h : matchAt (c :: cs) = none) :
    scanRe (c :: cs) = scanRe cs := by
  rw [scanRe_succ, h]

/-- A whole prefix of failing positions is skipped. -/
theorem scanRe_skip : ∀ (pre rest : List Char),
    (∀ n, n < pre.length → matchAt (pre.drop n ++ rest) = none) →
    scanRe (pre ++ rest) = scanRe rest := by
  intro pre
  induction pre with
  | nil => intro rest _; rfl
  | cons c cs ih =>
    intro rest h
    have h0 : matchAt (c :: (cs ++ rest)) = none := by
      have := h 0 (by simp)
      simpa using this
    rw [List.cons_append, scanRe_cons_none h0]
    exact ih rest (fun n hn => by
      have := h (n + 1) (by simpa using Nat.succ_lt_succ hn)
      simpa using this)

/-- RE_YOUTUBE matches a `watch?v=` tail via the `.*[?&]v=` alternative. -/
theorem matchAt_watch (l : List Char) (hall : l.all isIdChar = true) (hlen : l.length = 11) :
    matchAt (patYoutube ++ ('w' :: 'a' :: 't' :: 'c' :: 'h' :: '?' :: 'v' :: '=' :: l)) =
      some l := by
  have hidchar : ∀ c, c ∈ l → isIdChar c = true := fun c hc =>
    List.all_eq_true.mp hall c hc
  have hbe : strCI patYoutuBe
      (patYoutube ++ ('w' :: 'a' :: 't' :: 'c' :: 'h' :: '?' :: 'v' :: '=' :: l)) = none := rfl
  have ha1 : a1Cands ('w' :: 'a' :: 't' :: 'c' :: 'h' :: '?' :: 'v' :: '=' :: l) = [] := by
    have : consumeLit '/' (plusCands (fun c => !(c = '/'))
        ('w' :: 'a' :: 't' :: 'c' :: 'h' :: '?' :: 'v' :: '=' :: l)) = [] := by
      apply filterMap_plusCands_allnil
      · rfl
      · intro c cs hc
        simp only [List.mem_cons] at hc
        rcases hc with rfl | rfl | rfl | rfl | rfl | rfl | rfl | rfl | hc
        · rfl
        · rfl
        · rfl
        · rfl
        · rfl
        · rfl
        · rfl
        · rfl
        · exact consumeStep_of_idChar c cs (hidchar c hc)
    simp [a1Cands, this]
  have e3 : starCands isDot ('w' :: 'a' :: 't' :: 'c' :: 'h' :: '?' :: 'v' :: '=' :: l) =
      ((((((((starCands isDot l ++ ['=' :: l]) ++ ['v' :: '=' :: l]) ++ ['?' :: 'v' :: '=' :: l])
        ++ ['h' :: '?' :: 'v' :: '=' :: l]) ++ ['c' :: 'h' :: '?' :: 'v' :: '=' :: l])
        ++ ['t' :: 'c' :: 'h' :: '?' :: 'v' :: '=' :: l])
        ++ ['a' :: 't' :: 'c' :: 'h' :: '?' :: 'v' :: '=' :: l])
        ++ ['w' :: 'a' :: 't' :: 'c' :: 'h' :: '?' :: 'v' :: '=' :: l]) := rfl
  have hstar : (starCands isDot l).filterMap a3Step = [] := by
    apply filterMap_starCands_allnil
    · rfl
    · intro c cs hc
      exact a3Step_of_idChar c cs (hidchar c hc)
  have ha3 : a3Cands ('w' :: 'a' :: 't' :: 'c' :: 'h' :: '?' :: 'v' :: '=' :: l) = [l] := by
    rw [a3Cands, e3]
    simp only [List.filterMap_append, hstar]
    have s1 : List.filterMap a3Step ['=' :: l] = [] := rfl
    have s2 : List.filterMap a3Step ['v' :: '=' :: l] = [] := rfl
    have s3 : List.filterMap a3Step ['?' :: 'v' :: '=' :: l] = [l] := by
      simp [List.filterMap, a3Step, strCI, charCI]
    have s4 : List.filterMap a3Step ['h' :: '?' :: 'v' :: '=' :: l] = [] := rfl
    have s5 : List.filterMap a3Step ['c' :: 'h' :: '?' :: 'v' :: '=' :: l] = [] := rfl
    have s6 : List.filterMap a3Step ['t' :: 'c' :: 'h' :: '?' :: 'v' :: '=' :: l] = [] := rfl
    have s7 : List.filterMap a3Step ['a' :: 't' :: 'c' :: 'h' :: '?' :: 'v' :: '=' :: l] = [] := rfl
    have s8 : List.filterMap a3Step ['w' :: 'a' :: 't' :: 'c' :: 'h' :: '?' :: 'v' :: '=' :: l] = [] := rfl
    simp [s1, s2, s3, s4, s5, s6, s7, s8]
  have ha2 : a2Cands ('w' :: 'a' :: 't' :: 'c' :: 'h' :: '?' :: 'v' :: '=' :: l) = [] := rfl
  unfold matchAt
  rw [strCI_self patYoutube, hbe]
  simp only [ha1, ha2, ha3, List.nil_append, List.append_nil]
  simp [firstSome, finishCap_of_id l hall hlen]

/-- RE_YOUTUBE matches an `embed/` tail via the second alternative. -/
theorem matchAt_embed (l : List Char) (hall : l.all isIdChar = true) (hlen : l.length = 11) :
    matchAt (patYoutube ++ ('e' :: 'm' :: 'b' :: 'e' :: 'd' :: '/' :: l)) = some l := by
  have hidchar : ∀ c, c ∈ l → isIdChar c = true := fun c hc =>
    List.all_eq_true.mp hall c hc
  have hbe : strCI patYoutuBe
      (patYoutube ++ ('e' :: 'm' :: 'b' :: 'e' :: 'd' :: '/' :: l)) = none := rfl
  have hz : consumeLit '/' (plusCands isDot l) = [] := by
    apply filterMap_plusCands_allnil
    · rfl
    · intro c cs hc
      exact consumeStep_of_idChar c cs (hidchar c hc)
  have ha1 : a1Cands ('e' :: 'm' :: 'b' :: 'e' :: 'd' :: '/' :: l) = [] := by
    have e : consumeLit '/' (plusCands (fun c => !(c = '/'))
        ('e' :: 'm' :: 'b' :: 'e' :: 'd' :: '/' :: l)) = [l] := rfl
    unfold a1Cands
    rw [e]
    simp [hz]
  have ha2 : a2Cands ('e' :: 'm' :: 'b' :: 'e' :: 'd' :: '/' :: l) = [l] := rfl
  have e3 : starCands isDot ('e' :: 'm' :: 'b' :: 'e' :: 'd' :: '/' :: l) =
      ((((((starCands isDot l ++ ['/' :: l]) ++ ['d' :: '/' :: l]) ++ ['e' :: 'd' :: '/' :: l])
        ++ ['b' :: 'e' :: 'd' :: '/' :: l]) ++ ['m' :: 'b' :: 'e' :: 'd' :: '/' :: l])
        ++ ['e' :: 'm' :: 'b' :: 'e' :: 'd' :: '/' :: l]) := rfl
  have hstar : (starCands isDot l).filterMap a3Step = [] := by
    apply filterMap_starCands_allnil
    · rfl
    · intro c cs hc
      exact a3Step_of_idChar c cs (hidchar c hc)
  have ha3 : a3Cands ('e' :: 'm' :: 'b' :: 'e' :: 'd' :: '/' :: l) = [] := by
    rw [a3Cands, e3]
    simp only [List.filterMap_append, hstar]
    have s1 : List.filterMap a3Step ['/' :: l] = [] := rfl
    have s2 : List.filterMap a3Step ['d' :: '/' :: l] = [] := rfl
    have s3 : List.filterMap a3Step ['e' :: 'd' :: '/' :: l] = [] := rfl
    have s4 : List.filterMap a3Step ['b' :: 'e' :: 'd' :: '/' :: l] = [] := rfl
    have s5 : List.filterMap a3Step ['m' :: 'b' :: 'e' :: 'd' :: '/' :: l] = [] := rfl
    have s6 : List.filterMap a3Step ['e' :: 'm' :: 'b' :: 'e' :: 'd' :: '/' :: l] = [] := rfl
    simp [s1, s2, s3, s4, s5, s6]
  unfold matchAt
  rw [strCI_self patYoutube, hbe]
  simp only [ha1, ha2, ha3, List.nil_append, List.append_nil]
  simp [firstSome, finishCap_of_id l hall hlen]

/-- RE_YOUTUBE matches a `shorts/` tail via the second alternative. -/
theorem matchAt_shorts (l : List Char) (hall : l.all isIdChar = true) (hlen : l.length = 11) :
    matchAt (patYoutube ++ ('s' :: 'h' :: 'o' :: 'r' :: 't' :: 's' :: '/' :: l)) = some l := by
  have hidchar : ∀ c, c ∈ l → isIdChar c = true := fun c hc =>
    List.all_eq_true.mp hall c hc
  have hbe : strCI patYoutuBe
      (patYoutube ++ ('s' :: 'h' :: 'o' :: 'r' :: 't' :: 's' :: '/' :: l)) = none := rfl
  have hz : consumeLit '/' (plusCands isDot l) = [] := by
    apply filterMap_plusCands_allnil
    · rfl
    · intro c cs hc
      exact consumeStep_of_idChar c cs (hidchar c hc)
  have ha1 : a1Cands ('s' :: 'h' :: 'o' :: 'r' :: 't' :: 's' :: '/' :: l) = [] := by
    have e : consumeLit '/' (plusCands (fun c => !(c = '/'))
        ('s' :: 'h' :: 'o' :: 'r' :: 't' :: 's' :: '/' :: l)) = [l] := rfl
    unfold a1Cands
    rw [e]
    simp [hz]
  have ha2 : a2Cands ('s' :: 'h' :: 'o' :: 'r' :: 't' :: 's' :: '/' :: l) = [l] := rfl
  have e3 : starCands isDot ('s' :: 'h' :: 'o' :: 'r' :: 't' :: 's' :: '/' :: l) =
      (((((((starCands isDot l ++ ['/' :: l]) ++ ['s' :: '/' :: l]) ++ ['t' :: 's' :: '/' :: l])
        ++ ['r' :: 't' :: 's' :: '/' :: l]) ++ ['o' :: 'r' :: 't' :: 's' :: '/' :: l])
        ++ ['h' :: 'o' :: 'r' :: 't' :: 's' :: '/' :: l])
        ++ ['s' :: 'h' :: 'o' :: 'r' :: 't' :: 's' :: '/' :: l]) := rfl
  have hstar : (starCands isDot l).filterMap a3Step = [] := by
    apply filterMap_starCands_allnil
    · rfl
    · intro c cs hc
      exact a3Step_of_idChar c cs (hidchar c hc)
  have ha3 : a3Cands ('s' :: 'h' :: 'o' :: 'r' :: 't' :: 's' :: '/' :: l) = [] := by
    rw [a3Cands, e3]
    simp only [List.filterMap_append, hstar]
    have s1 : List.filterMap a3Step ['/' :: l] = [] := rfl
    have s2 : List.filterMap a3Step ['s' :: '/' :: l] = [] := rfl
    have s3 : List.filterMap a3Step ['t' :: 's' :: '/' :: l] = [] := rfl
    have s4 : List.filterMap a3Step ['r' :: 't' :: 's' :: '/' :: l] = [] := rfl
    have s5 : List.filterMap a3Step ['o' :: 'r' :: 't' :: 's' :: '/' :: l] = [] := rfl
    have s6 : List.filterMap a3Step ['h' :: 'o' :: 'r' :: 't' :: 's' :: '/' :: l] = [] := rfl
    have s7 : List.filterMap a3Step ['s' :: 'h' :: 'o' :: 'r' :: 't' :: 's' :: '/' :: l] = [] := rfl
    simp [s1, s2, s3, s4, s5, s6, s7]
  unfold matchAt
  rw [strCI_self patYoutube, hbe]
  simp only [ha1, ha2, ha3, List.nil_append, List.append_nil]
  simp [firstSome, finishCap_of_id l hall hlen]

/-- RE_YOUTUBE matches a `v/` tail via the second alternative. -/
theorem matchAt_v (l : List Char) (hall : l.all isIdChar = true) (hlen : l.length = 11) :
    matchAt (patYoutube ++ ('v' :: '/' :: l)) = some l := by
  have hidchar : ∀ c, c ∈ l → isIdChar c = true := fun c hc =>
    List.all_eq_true.mp hall c hc
  have hbe : strCI patYoutuBe (patYoutube ++ ('v' :: '/' :: l)) = none := rfl
  have hz : consumeLit '/' (plusCands isDot l) = [] := by
    apply filterMap_plusCands_allnil
    · rfl
    · intro c cs hc
      exact consumeStep_of_idChar c cs (hidchar c hc)
  have ha1 : a1Cands ('v' :: '/' :: l) = [] := by
    have e : consumeLit '/' (plusCands (fun c => !(c = '/')) ('v' :: '/' :: l)) = [l] := rfl
    unfold a1Cands
    rw [e]
    simp [hz]
  have ha2 : a2Cands ('v' :: '/' :: l) = [l] := rfl
  have e3 : starCands isDot ('v' :: '/' :: l) =
      ((starCands isDot l ++ ['/' :: l]) ++ ['v' :: '/' :: l]) := rfl
  have hstar : (starCands isDot l).filterMap a3Step = [] := by
    apply filterMap_starCands_allnil
    · rfl
    · intro c cs hc
      exact a3Step_of_idChar c cs (hidchar c hc)
  have ha3 : a3Cands ('v' :: '/' :: l) = [] := by
    rw [a3Cands, e3]
    simp only [List.filterMap_append, hstar]
    have s1 : List.filterMap a3Step ['/' :: l] = [] := rfl
    have s2 : List.filterMap a3Step ['v' :: '/' :: l] = [] := rfl
    simp [s1, s2]
  unfold matchAt
  rw [strCI_self patYoutube, hbe]
  simp only [ha1, ha2, ha3, List.nil_append, List.append_nil]
  simp [firstSome, finishCap_of_id l hall hlen]

/-- RE_YOUTUBE matches a `youtu.be/` position via the second top-level
alternative. -/
theorem matchAt_be (l : List Char) (hall : l.all isIdChar = true) (hlen : l.length = 11) :
    matchAt (patYoutuBe ++ l) = some l := by
  have hyt : strCI patYoutube (patYoutuBe ++ l) = none := rfl
  unfold matchAt
  rw [strCI_self patYoutuBe, hyt]
  simp [firstSome, finishCap_of_id l hall hlen]

/-- The identifier embedded in a full `https://www.youtube.com/watch?v=ID` URL is extracted. -/
theorem retrieveVideoId_watch (vid : String) (hall : vid.data.all isIdChar = true)
    (hlen : vid.length = 11) :
    retrieveVideoId ("https://www.youtube.com/watch?v=" ++ vid) = Except.ok vid := by
  have hlen2 : ("https://www.youtube.com/watch?v=" ++ vid).length = 43 := by
    rw [String.length_append, hlen]
    rfl
  have hm := matchAt_watch vid.data hall hlen
  have hdata : ("https://www.youtube.com/watch?v=" ++ vid).data =
      ['h', 't', 't', 'p', 's', ':', '/', '/', 'w', 'w', 'w', '.'] ++
      (patYoutube ++ ('w' :: 'a' :: 't' :: 'c' :: 'h' :: '?' :: 'v' :: '=' :: vid.data)) := rfl
  have hscan : scanRe (("https://www.youtube.com/watch?v=" ++ vid).data) = some vid.data := by
    rw [hdata, scanRe_skip _ _ (by
      intro n hn
      have hb : n < 12 := by simpa using hn
      interval_cases n <;> rfl)]
    rw [show patYoutube ++ ('w' :: 'a' :: 't' :: 'c' :: 'h' :: '?' :: 'v' :: '=' :: vid.data) =
      'y' :: ('o' :: 'u' :: 't' :: 'u' :: 'b' :: 'e' :: '.' :: 'c' :: 'o' :: 'm' :: '/' :: 'w' :: 'a' :: 't' :: 'c' :: 'h' :: '?' :: 'v' :: '=' :: vid.data) from rfl]
    rw [scanRe_succ, show matchAt ('y' :: ('o' :: 'u' :: 't' :: 'u' :: 'b' :: 'e' :: '.' :: 'c' :: 'o' :: 'm' :: '/' :: 'w' :: 'a' :: 't' :: 'c' :: 'h' :: '?' :: 'v' :: '=' :: vid.data)) = some vid.data from hm]
  have hcap : reYoutubeCapture ("https://www.youtube.com/watch?v=" ++ vid) = some vid := by
    unfold reYoutubeCapture
    rw [hscan]
    simp
  unfold retrieveVideoId
  rw [if_neg (by rw [hlen2]; omega), hcap]

/-- The identifier embedded in a full `https://www.youtube.com/embed/ID` URL is extracted. -/
theorem retrieveVideoId_embed (vid : String) (hall : vid.data.all isIdChar = true)
    (hlen : vid.length = 11) :
    retrieveVideoId ("https://www.youtube.com/embed/" ++ vid) = Except.ok vid := by
  have hlen2 : ("https://www.youtube.com/embed/" ++ vid).length = 41 := by
    rw [String.length_append, hlen]
    rfl
  have hm := matchAt_embed vid.data hall hlen
  have hdata : ("https://www.youtube.com/embed/" ++ vid).data =
      ['h', 't', 't', 'p', 's', ':', '/', '/', 'w', 'w', 'w', '.'] ++
      (patYoutube ++ ('e' :: 'm' :: 'b' :: 'e' :: 'd' :: '/' :: vid.data)) := rfl
  have hscan : scanRe (("https://www.youtube.com/embed/" ++ vid).data) = some vid.data := by
    rw [hdata, scanRe_skip _ _ (by
      intro n hn
      have hb : n < 12 := by simpa using hn
      interval_cases n <;> rfl)]
    rw [show patYoutube ++ ('e' :: 'm' :: 'b' :: 'e' :: 'd' :: '/' :: vid.data) =
      'y' :: ('o' :: 'u' :: 't' :: 'u' :: 'b' :: 'e' :: '.' :: 'c' :: 'o' :: 'm' :: '/' :: 'e' :: 'm' :: 'b' :: 'e' :: 'd' :: '/' :: vid.data) from rfl]
    rw [scanRe_succ, show matchAt ('y' :: ('o' :: 'u' :: 't' :: 'u' :: 'b' :: 'e' :: '.' :: 'c' :: 'o' :: 'm' :: '/' :: 'e' :: 'm' :: 'b' :: 'e' :: 'd' :: '/' :: vid.data)) = some vid.data from hm]
  have hcap : reYoutubeCapture ("https://www.youtube.com/embed/" ++ vid) = some vid := by
    unfold reYoutubeCapture
    rw [hscan]
    simp
  unfold retrieveVideoId
  rw [if_neg (by rw [hlen2]; omega), hcap]

/-- The identifier embedded in a full `https://www.youtube.com/shorts/ID` URL is extracted. -/
theorem retrieveVideoId_shorts (vid : String) (hall : vid.data.all isIdChar = true)
    (hlen : vid.length = 11) :
    retrieveVideoId ("https://www.youtube.com/shorts/" ++ vid) = Except.ok vid := by
  have hlen2 : ("https://www.youtube.com/shorts/" ++ vid).length = 42 := by
    rw [String.length_append, hlen]
    rfl
  have hm := matchAt_shorts vid.data hall hlen
  have hdata : ("https://www.youtube.com/shorts/" ++ vid).data =
      ['h', 't', 't', 'p', 's', ':', '/', '/', 'w', 'w', 'w', '.'] ++
      (patYoutube ++ ('s' :: 'h' :: 'o' :: 'r' :: 't' :: 's' :: '/' :: vid.data)) := rfl
  have hscan : scanRe (("https://www.youtube.com/shorts/" ++ vid).data) = some vid.data := by
    rw [hdata, scanRe_skip _ _ (by
      intro n hn
      have hb : n < 12 := by simpa using hn
      interval_cases n <;> rfl)]
    rw [show patYoutube ++ ('s' :: 'h' :: 'o' :: 'r' :: 't' :: 's' :: '/' :: vid.data) =
      'y' :: ('o' :: 'u' :: 't' :: 'u' :: 'b' :: 'e' :: '.' :: 'c' :: 'o' :: 'm' :: '/' :: 's' :: 'h' :: 'o' :: 'r' :: 't' :: 's' :: '/' :: vid.data) from rfl]
    rw [scanRe_succ, show matchAt ('y' :: ('o' :: 'u' :: 't' :: 'u' :: 'b' :: 'e' :: '.' :: 'c' :: 'o' :: 'm' :: '/' :: 's' :: 'h' :: 'o' :: 'r' :: 't' :: 's' :: '/' :: vid.data)) = some vid.data from hm]
  have hcap : reYoutubeCapture ("https://www.youtube.com/shorts/" ++ vid) = some vid := by
    unfold reYoutubeCapture
    rw [hscan]
    simp
  unfold retrieveVideoId
  rw [if_neg (by rw [hlen2]; omega), hcap]

/-- The identifier embedded in a full `https://www.youtube.com/v/ID` URL is extracted. -/
theorem retrieveVideoId_vpath (vid : String) (hall : vid.data.all isIdChar = true)
    (hlen : vid.length = 11) :
    retrieveVideoId ("https://www.youtube.com/v/" ++ vid) = Except.ok vid := by
  have hlen2 : ("https://www.youtube.com/v/" ++ vid).length = 37 := by
    rw [String.length_append, hlen]
    rfl
  have hm := matchAt_v vid.data hall hlen
  have hdata : ("https://www.youtube.com/v/" ++ vid).data =
      ['h', 't', 't', 'p', 's', ':', '/', '/', 'w', 'w', 'w', '.'] ++
      (patYoutube ++ ('v' :: '/' :: vid.data)) := rfl
  have hscan : scanRe (("https://www.youtube.com/v/" ++ vid).data) = some vid.data := by
    rw [hdata, scanRe_skip _ _ (by
      intro n hn
      have hb : n < 12 := by simpa using hn
      interval_cases n <;> rfl)]
    rw [show patYoutube ++ ('v' :: '/' :: vid.data) =
      'y' :: ('o' :: 'u' :: 't' :: 'u' :: 'b' :: 'e' :: '.' :: 'c' :: 'o' :: 'm' :: '/' :: 'v' :: '/' :: vid.data) from rfl]
    rw [scanRe_succ, show matchAt ('y' :: ('o' :: 'u' :: 't' :: 'u' :: 'b' :: 'e' :: '.' :: 'c' :: 'o' :: 'm' :: '/' :: 'v' :: '/' :: vid.data)) = some vid.data from hm]
  have hcap : reYoutubeCapture ("https://www.youtube.com/v/" ++ vid) = some vid := by
    unfold reYoutubeCapture
    rw [hscan]
    simp
  unfold retrieveVideoId
  rw [if_neg (by rw [hlen2]; omega), hcap]

/-- The identifier embedded in a full `https://youtu.be/ID` URL is extracted. -/
theorem retrieveVideoId_be (vid : String) (hall : vid.data.all isIdChar = true)
    (hlen : vid.length = 11) :
    retrieveVideoId ("https://youtu.be/" ++ vid) = Except.ok vid := by
  have hlen2 : ("https://youtu.be/" ++ vid).length = 28 := by
    rw [String.length_append, hlen]
    rfl
  have hm := matchAt_be vid.data hall hlen
  have hdata : ("https://youtu.be/" ++ vid).data =
      ['h', 't', 't', 'p', 's', ':', '/', '/'] ++
      (patYoutuBe ++ vid.data) := rfl
  have hscan : scanRe (("https://youtu.be/" ++ vid).data) = some vid.data := by
    rw [hdata, scanRe_skip _ _ (by
      intro n hn
      have hb : n < 8 := by simpa using hn
      interval_cases n <;> rfl)]
    rw [show patYoutuBe ++ vid.data =
      'y' :: ('o' :: 'u' :: 't' :: 'u' :: '.' :: 'b' :: 'e' :: '/' :: vid.data) from rfl]
    rw [scanRe_succ, show matchAt ('y' :: ('o' :: 'u' :: 't' :: 'u' :: '.' :: 'b' :: 'e' :: '/' :: vid.data)) = some vid.data from hm]
  have hcap : reYoutubeCapture ("https://youtu.be/" ++ vid) = some vid := by
    unfold reYoutubeCapture
    rw [hscan]
    simp
  unfold retrieveVideoId
  rw [if_neg (by rw [hlen2]; omega), hcap]

/-- Claim C8: the Identifier Resolver returns an 11-character input unchanged
(no pattern matching or validation); otherwise it extracts the embedded
11-character identifier from each known URL shape (`watch?v=`, `youtu.be/ID`,
`/embed/ID`, `/shorts/ID`, `/v/ID` — query-parameter forms are the `watch?v=`
case of the `.*[?&]v=` alternative); otherwise (no regex match) it fails with
the generic resolution error.  No network or I/O is involved: the resolver is
a pure function. -/
theorem retrieveVideoId_spec :
    (∀ s : String, s.length = 11 → retrieveVideoId s = Except.ok s) ∧
    (∀ vid : String, vid.data.all isIdChar = true → vid.length = 11 →
      retrieveVideoId ("https://www.youtube.com/watch?v=" ++ vid) = Except.ok vid) ∧
    (∀ vid : String, vid.data.all isIdChar = true → vid.length = 11 →
      retrieveVideoId ("https://youtu.be/" ++ vid) = Except.ok vid) ∧
    (∀ vid : String, vid.data.all isIdChar = true → vid.length = 11 →
      retrieveVideoId ("https://www.youtube.com/embed/" ++ vid) = Except.ok vid) ∧
    (∀ vid : String, vid.data.all isIdChar = true → vid.length = 11 →
      retrieveVideoId ("https://www.youtube.com/shorts/" ++ vid) = Except.ok vid) ∧
    (∀ vid : String, vid.data.all isIdChar = true → vid.length = 11 →
      retrieveVideoId ("https://www.youtube.com/v/" ++ vid) = Except.ok vid) ∧
    (∀ s : String, s.length ≠ 11 → reYoutubeCapture s = none →
      retrieveVideoId s =
        Except.error (YtError.base "Impossible to retrieve Youtube video ID.")) := by
  refine ⟨?_, retrieveVideoId_watch, retrieveVideoId_be, retrieveVideoId_embed,
    retrieveVideoId_shorts, retrieveVideoId_vpath, ?_⟩
  · intro s hs
    simp [retrieveVideoId, hs]
  · intro s hs hnone
    unfold retrieveVideoId
    rw [if_neg hs, hnone]

/-- Witness for C8: a literal 11-character identifier, one extraction per URL
shape, and a non-matching input. -/
theorem retrieveVideoId_spec_witness :
    retrieveVideoId "dQw4w9WgXcQ" = Except.ok "dQw4w9WgXcQ" ∧
    retrieveVideoId "https://www.youtube.com/watch?v=dQw4w9WgXcQ" = Except.ok "dQw4w9WgXcQ" ∧
    retrieveVideoId "https://youtu.be/dQw4w9WgXcQ" = Except.ok "dQw4w9WgXcQ" ∧
    retrieveVideoId "https://www.youtube.com/embed/dQw4w9WgXcQ" = Except.ok "dQw4w9WgXcQ" ∧
    retrieveVideoId "https://www.youtube.com/shorts/dQw4w9WgXcQ" = Except.ok "dQw4w9WgXcQ" ∧
    retrieveVideoId "https://www.youtube.com/v/dQw4w9WgXcQ" = Except.ok "dQw4w9WgXcQ" ∧
    retrieveVideoId "definitely not a video url" =
      Except.error (YtError.base "Impossible to retrieve Youtube video ID.") := by
  refine ⟨retrieveVideoId_spec.1 "dQw4w9WgXcQ" (by decide), ?_, ?_, ?_, ?_, ?_,
    retrieveVideoId_spec.2.2.2.2.2.2 "definitely not a video url" (by decide) rfl⟩
  · exact retrieveVideoId_spec.2.1 "dQw4w9WgXcQ" (by decide) (by decide)
  · exact retrieveVideoId_spec.2.2.1 "dQw4w9WgXcQ" (by decide) (by decide)
  · exact retrieveVideoId_spec.2.2.2.1 "dQw4w9WgXcQ" (by decide) (by decide)
  · exact retrieveVideoId_spec.2.2.2.2.1 "dQw4w9WgXcQ" (by decide) (by decide)
  · exact retrieveVideoId_spec.2.2.2.2.2.1 "dQw4w9WgXcQ" (by decide) (by decide)
